import Mathlib

/-!
# Lab_Track — verification of the entity/transaction core

Shallow embedding of the in-memory ("mock") backend of `DatabaseManager`
in `mainV10.py`.  Python dictionaries become structures, the mutable
lists `mock_inventory`, `mock_items`, `mock_students`, `mock_transactions`,
`mock_transaction_items` become the fields of a `Store` record, and each
mutating method becomes a function `Store → ... → Store × result`.

Timestamps are modelled as `Int` seconds (`datetime.now()` becomes an
explicit `now : Int` argument; `timedelta(days=d)` is `d * 86400`;
`timedelta.days` is floor division by 86400, which is what Python's
`.days` computes).

String handling is done on `String.data` (`List Char`) with explicit
helper functions mirroring the Python operations used by the source
(`.strip()`, `.upper()`, `.replace(' ','')`, slicing, `startswith`,
`int(...)`, `f"{n:03d}"`, `.ljust(3,'X')`).  `pyParseNat` models
`int(s)` on the serial suffixes: it accepts non-empty all-digit strings
and rejects everything else (Python's `int` is slightly more lenient —
sign, surrounding whitespace, underscores — but every serial the system
generates is a plain digit string, and the source ignores any suffix
whose parse fails).
-/

/-- Python `str.strip()`: drop leading and trailing whitespace. -/
def trimChars (l : List Char) : List Char :=
  ((l.dropWhile Char.isWhitespace).reverse.dropWhile Char.isWhitespace).reverse

/-- Python `str.upper()` (character-wise, as for ASCII names in the data). -/
def upperChars (l : List Char) : List Char :=
  l.map Char.toUpper

/-- Python `str.replace(' ', '')`: remove every space character. -/
def removeSpaces (l : List Char) : List Char :=
  l.filter (fun c => c ≠ ' ')

/-- Value of a digit string, most significant first (the fold inside
Python's `int`). -/
def digitsToNat (l : List Char) : Nat :=
  l.foldl (fun n c => n * 10 + (c.toNat - 48)) 0

/-- Fuel-driven helper for `natDigits` (structural recursion so that
concrete values reduce inside the kernel; the fuel is never exhausted
when it starts at `n`, because `n / 10 < n` for `n ≥ 10`). -/
def natDigitsGo (fuel n : Nat) : List Char :=
  match fuel with
  | 0 => [Nat.digitChar n]
  | fuel + 1 =>
    if n < 10 then [Nat.digitChar n]
    else natDigitsGo fuel (n / 10) ++ [Nat.digitChar (n % 10)]

/-- Decimal digits of `n`, most significant first (Python `str(n)` for
`n : Nat`). -/
def natDigits (n : Nat) : List Char :=
  natDigitsGo n n

/-- Python `f"{n:03d}"`: decimal digits zero-padded on the left to width
at least 3. -/
def pad3Chars (n : Nat) : List Char :=
  List.replicate (3 - (natDigits n).length) '0' ++ natDigits n

/-- Python `int(s)` as used on serial-number suffixes: parses a
non-empty digit string, `none` on anything else (the source wraps the
call in `try/except` and ignores failures). -/
def pyParseNat (s : String) : Option Nat :=
  if s.data ≠ [] ∧ s.data.all Char.isDigit then some (digitsToNat s.data) else none

/-- Python `s.startswith(p)`. -/
def pyStartsWith (s p : String) : Bool :=
  p.data.isPrefixOf s.data

/-- Python `s[n:]`. -/
def pySliceFrom (s : String) (n : Nat) : String :=
  String.mk (s.data.drop n)

/-- Python `s.strip()` on a `String`. -/
def pyStrip (s : String) : String :=
  String.mk (trimChars s.data)

/-- Mutating the first element of a Python list that satisfies a
predicate (the `for ...: if cond: mutate; break` idiom used throughout
`DatabaseManager`). -/
def updateFirstBy (p : α → Bool) (f : α → α) : List α → List α
  | [] => []
  | x :: rest => if p x then f x :: rest else x :: updateFirstBy p f rest

/-! ## Entities (the mock-data dictionaries of `_init_mock_data`) -/

/-- The `Item.status` values written by the core: `Available`, `Issued`,
`Damaged`. -/
inductive Status
  | Available
  | Issued
  | Damaged
deriving DecidableEq

/-- The `Transaction.status` values: `Active`, `Closed`. -/
inductive TxStatus
  | Active
  | Closed
deriving DecidableEq

/-- A row of `mock_inventory`. -/
structure Inventory where
  id : Nat
  name : String
  total_qty : Int
  course : Option String := none
  description : Option String := none
deriving DecidableEq

/-- A row of `mock_items`. -/
structure Item where
  id : Nat
  serial_number : String
  status : Status
  inventory_id : Nat
deriving DecidableEq

/-- A row of `mock_students`. -/
structure Student where
  id : Nat
  student_id : String
  name : String
  phone : Option String := none
  email : Option String := none
deriving DecidableEq

/-- A row of `mock_staff`. -/
structure Staff where
  id : Nat
  staff_id : String
  name : String
deriving DecidableEq

/-- A row of `mock_transactions`.  `created_at` and `issue_date` are both
set to `now` by `create_transaction`; `closed_at` is absent until a
return/damage report writes it; `issuer_id` is stored only when truthy. -/
structure Transaction where
  id : Nat
  student_id : Nat
  status : TxStatus
  created_at : Int
  issue_date : Int
  issuer_id : Option Nat := none
  closed_at : Option Int := none
deriving DecidableEq

/-- A row of `mock_transaction_items` (a TransactionLine). -/
structure TransactionItem where
  id : Nat
  transaction_id : Nat
  item_id : Nat
deriving DecidableEq

/-- The in-memory state of `DatabaseManager` (mock backend). -/
structure Store where
  mock_inventory : List Inventory := []
  mock_items : List Item := []
  mock_students : List Student := []
  mock_staff : List Staff := []
  mock_transactions : List Transaction := []
  mock_transaction_items : List TransactionItem := []
deriving DecidableEq

/-! ## Lookup helpers (the `for`/`break` searches by id) -/

/-- First transaction with the given id. -/
def findTx (db : Store) (tid : Nat) : Option Transaction :=
  db.mock_transactions.find? (fun t => t.id == tid)

/-- First item with the given id. -/
def findItem (db : Store) (iid : Nat) : Option Item :=
  db.mock_items.find? (fun it => it.id == iid)

/-! ## Operations -/

/-- Embedding of `DatabaseManager.delete_student` (mock path): filter the list and
report `True` unconditionally. -/
def delete_student (db : Store) (student_id : Nat) : Store × Bool :=
  ({ db with mock_students := db.mock_students.filter (fun s => s.id != student_id) }, true)

/-- Python truthiness of the optional `issuer_id` argument
(`if issuer_id:`). -/
def truthyOptNat (o : Option Nat) : Option Nat :=
  match o with
  | some 0 => none
  | x => x

/-- The `for item_id in item_ids` loop of `create_transaction`: append a
transaction line (id = current length + 1) and set the first matching
item's status to `Issued`. -/
def issueLoop (items : List Item) (lines : List TransactionItem) (tid : Nat) :
    List Nat → List Item × List TransactionItem
  | [] => (items, lines)
  | i :: rest =>
    issueLoop
      (updateFirstBy (fun it => it.id == i) (fun it => { it with status := Status.Issued }) items)
      (lines ++ [{ id := lines.length + 1, transaction_id := tid, item_id := i }]) tid rest

/-- Embedding of `DatabaseManager.create_transaction` (mock path): append an `Active`
transaction with id `len + 1`, then run the item loop.  No validation of
any kind is performed here. -/
def create_transaction (db : Store) (now : Int) (student_id : Nat) (item_ids : List Nat)
    (issuer_id : Option Nat) : Store × Nat :=
  let transaction_id := db.mock_transactions.length + 1
  let tdata : Transaction :=
    { id := transaction_id, student_id := student_id, status := TxStatus.Active,
      created_at := now, issue_date := now, issuer_id := truthyOptNat issuer_id,
      closed_at := none }
  let res := issueLoop db.mock_items db.mock_transaction_items transaction_id item_ids
  ({ db with mock_transactions := db.mock_transactions ++ [tdata],
             mock_items := res.1, mock_transaction_items := res.2 }, transaction_id)

/-- Embedding of `DatabaseManager.return_item` (mock path): set the first item with
the given id to `Available`, close the first transaction with the given
id (overwriting `closed_at` with `now`), and return `True` — with no
check that either id exists, that the transaction is open, or that any
line links them. -/
def return_item (db : Store) (now : Int) (item_id transaction_id : Nat) : Store × Bool :=
  ({ db with
      mock_items := updateFirstBy (fun it => it.id == item_id)
        (fun it => { it with status := Status.Available }) db.mock_items,
      mock_transactions := updateFirstBy (fun t => t.id == transaction_id)
        (fun t => { t with status := TxStatus.Closed, closed_at := some now })
        db.mock_transactions }, true)

/-- Embedding of `DatabaseManager.report_damaged` (mock path): identical to
`return_item` except the item status becomes `Damaged`. -/
def report_damaged (db : Store) (now : Int) (item_id transaction_id : Nat) : Store × Bool :=
  ({ db with
      mock_items := updateFirstBy (fun it => it.id == item_id)
        (fun it => { it with status := Status.Damaged }) db.mock_items,
      mock_transactions := updateFirstBy (fun t => t.id == transaction_id)
        (fun t => { t with status := TxStatus.Closed, closed_at := some now })
        db.mock_transactions }, true)

/-! ## Overdue computation (`get_overdue_items`, mock path) -/

/-- One record returned by `get_overdue_items`: an item copy annotated
with the transaction id and `days_overdue`. -/
structure OverdueEntry where
  item : Item
  transaction_id : Nat
  days_overdue : Int
deriving DecidableEq

/-- The inner loop of `get_overdue_items`: for each line of the overdue
transaction, append the first item with the matching id. -/
def overdueEntriesFor (db : Store) (now : Int) (trans : Transaction) : List OverdueEntry :=
  db.mock_transaction_items.filterMap (fun ti =>
    if ti.transaction_id == trans.id then
      (findItem db ti.item_id).map (fun it =>
        { item := it, transaction_id := trans.id,
          days_overdue := (now - trans.issue_date).fdiv 86400 })
    else none)

/-- Embedding of `DatabaseManager.get_overdue_items` (mock path).  `threshold_date`
is `datetime.now() - timedelta(days=days_threshold)`; a transaction is
overdue when it is `Active` and `issue_date < threshold_date` (strict);
`days_overdue` is `(now - issue_date).days`, i.e. floor division of the
second delta by 86400.  In this model `issue_date` is always present and
parseable (the code falls back to `created_at`, which
`create_transaction` always sets to the same value). -/
def get_overdue_items (db : Store) (now : Int) (days_threshold : Int) : List OverdueEntry :=
  let threshold_date := now - days_threshold * 86400
  db.mock_transactions.flatMap (fun trans =>
    if trans.status = TxStatus.Active ∧ trans.issue_date < threshold_date then
      overdueEntriesFor db now trans
    else [])

/-! ## Bulk import (`bulk_import_inventory`, mock path) -/

/-- One row of the parsed CSV (`Component Name`, `Quantity`,
`Description`).  `quantity` is the result of Python's `int(...)`
conversion. -/
structure CsvRow where
  componentName : String
  quantity : Int
  description : String := ""
deriving DecidableEq

/-- Serial prefix derivation of `bulk_import_inventory`:
`component_name[:3].upper().replace(' ', '')`, then `.ljust(3, 'X')`
when fewer than 3 characters remain.  Note the truncation to three
characters happens BEFORE spaces are removed. -/
def codePfx (name : String) : String :=
  let p := removeSpaces (upperChars (name.data.take 3))
  String.mk (if p.length < 3 then p ++ List.replicate (3 - p.length) 'X' else p)

/-- The max-suffix scan of `bulk_import_inventory`: over all existing
items of the inventory whose serial starts with the prefix, the maximum
parsed numeric suffix, starting from 0 and ignoring parse failures. -/
def maxSerialLoop (pfxS : String) (invId : Nat) : List Item → Nat → Nat
  | [], m => m
  | it :: rest, m =>
    maxSerialLoop pfxS invId rest
      (if it.inventory_id == invId && pyStartsWith it.serial_number pfxS then
        match pyParseNat (pySliceFrom it.serial_number pfxS.length) with
        | some n => max m n
        | none => m
      else m)

/-- A generated serial number: `f"{prefix}{num:03d}"`. -/
def mkSerial (pfxS : String) (num : Nat) : String :=
  String.mk (pfxS.data ++ pad3Chars num)

/-- The item-creation loop of `bulk_import_inventory`: for
`i in range(quantity)` append an `Available` item with id
`len(mock_items) + 1` and serial `prefix + pad3(max_num + i + 1)`. -/
def genItemsLoop (invId : Nat) (pfxS : String) (maxNum : Nat) :
    List Item → Nat → Nat → List Item
  | items, _, 0 => items
  | items, i, Nat.succ rem =>
    genItemsLoop invId pfxS maxNum
      (items ++ [{ id := items.length + 1, serial_number := mkSerial pfxS (maxNum + i + 1),
                   status := Status.Available, inventory_id := invId }])
      (i + 1) rem

/-- The inventory id a row targets: the id of the first inventory whose
name matches case-insensitively, else the fresh id `len + 1`. -/
def targetInvId (db : Store) (component_name : String) : Nat :=
  match db.mock_inventory.find?
      (fun inv => upperChars inv.name.data == upperChars component_name.data) with
  | some inv => inv.id
  | none => db.mock_inventory.length + 1

/-- The non-skipped part of the `for row in csv_data` loop body of
`bulk_import_inventory` (mock path): inventory lookup (first
case-insensitive name match), total-quantity update or fresh inventory
row (id = `len + 1`), serial generation from the per-inventory max
suffix, and item creation with the counter updates. -/
def processRowCore (db : Store) (invCreated itemsCreated : Nat) (row : CsvRow) :
    Store × Nat × Nat :=
  match db.mock_inventory.find? (fun inv =>
      upperChars inv.name.data == upperChars (pyStrip row.componentName).data) with
  | some inv =>
    ({ db with
        mock_inventory := updateFirstBy (fun i =>
            upperChars i.name.data == upperChars (pyStrip row.componentName).data)
          (fun i => { i with total_qty := i.total_qty + row.quantity }) db.mock_inventory,
        mock_items := genItemsLoop inv.id (codePfx (pyStrip row.componentName))
          (maxSerialLoop (codePfx (pyStrip row.componentName)) inv.id db.mock_items 0)
          db.mock_items 0 row.quantity.toNat },
      invCreated, itemsCreated + row.quantity.toNat)
  | none =>
    ({ db with
        mock_inventory := db.mock_inventory ++
          [{ id := db.mock_inventory.length + 1, name := pyStrip row.componentName,
             total_qty := row.quantity, course := none,
             description := some (pyStrip row.description) }],
        mock_items := genItemsLoop (db.mock_inventory.length + 1)
          (codePfx (pyStrip row.componentName))
          (maxSerialLoop (codePfx (pyStrip row.componentName))
            (db.mock_inventory.length + 1) db.mock_items 0)
          db.mock_items 0 row.quantity.toNat },
      invCreated + 1, itemsCreated + row.quantity.toNat)

/-- The body of the `for row in csv_data` loop of
`bulk_import_inventory` (mock path): rows with an empty (stripped) name
or non-positive quantity are skipped by `continue`, everything else goes
through `processRowCore`. -/
def processRow (db : Store) (invCreated itemsCreated : Nat) (row : CsvRow) :
    Store × Nat × Nat :=
  if (pyStrip row.componentName).data = [] ∨ row.quantity ≤ 0 then
    (db, invCreated, itemsCreated)
  else processRowCore db invCreated itemsCreated row

/-- Embedding of `DatabaseManager.bulk_import_inventory` (mock path): fold the row
body over the CSV rows, returning the final store and the pair
`(inventory_records_created, item_records_created)`. -/
def bulk_import_inventory (db : Store) (csv_data : List CsvRow) : Store × Nat × Nat :=
  csv_data.foldl (fun acc row => processRow acc.1 acc.2.1 acc.2.2 row) (db, 0, 0)

/-! ## The spec-level `issue` operation

The issue workflow is split in the source between the UI layer and
`create_transaction`: `InventoryApp._handle_serial_number` blocks items
whose status is `Issued` (error popup) and items whose status is
`Damaged` unless the user confirms the override
(`_show_warning`), and `_finalize_transaction` refuses an empty cart;
only then is `DatabaseManager.create_transaction` invoked with the
cart's item ids.  `issue` composes exactly these guards with
`create_transaction`. -/

/-- Errors of the composite issue operation. -/
inductive IssueError
  | EmptyCart
  | AlreadyIssued
  | DamagedConfirmationRequired
  | InvalidState
deriving DecidableEq

/-- The per-item status check of `_handle_serial_number`, applied to
each requested item in order; an id with no matching item cannot be
added to the cart and is reported as `InvalidState`. -/
def firstIssueError (db : Store) (override : Bool) : List Nat → Option IssueError
  | [] => none
  | i :: rest =>
    match findItem db i with
    | none => some IssueError.InvalidState
    | some it =>
      match it.status with
      | Status.Issued => some IssueError.AlreadyIssued
      | Status.Damaged =>
        if override then firstIssueError db override rest
        else some IssueError.DamagedConfirmationRequired
      | Status.Available => firstIssueError db override rest

/-- The composite issue operation: empty-cart check, per-item status
guards, then `create_transaction`.  Returns the new state together with
either the new transaction id or the error. -/
def issue (db : Store) (now : Int) (student_id : Nat) (item_ids : List Nat)
    (issuer_id : Option Nat) (override : Bool) : Store × Option Nat × Option IssueError :=
  if item_ids.isEmpty then (db, none, some IssueError.EmptyCart)
  else
    match firstIssueError db override item_ids with
    | some e => (db, none, some e)
    | none =>
      let res := create_transaction db now student_id item_ids issuer_id
      (res.1, some res.2, none)

/-! ## Derived notions for the invariant claims -/

/-- A transaction line counts as active when the transaction it refers
to exists and is `Active`. -/
def lineIsActive (db : Store) (ti : TransactionItem) : Bool :=
  match findTx db ti.transaction_id with
  | some t => t.status == TxStatus.Active
  | none => false

/-- Number of active transaction lines referencing a given item id. -/
def activeLineCount (db : Store) (item_id : Nat) : Nat :=
  (db.mock_transaction_items.filter
    (fun ti => ti.item_id == item_id && lineIsActive db ti)).length

/-- The spec's core invariant: an item is `Issued` iff exactly one
active transaction line references it. -/
def InvC1 (db : Store) : Prop :=
  ∀ it ∈ db.mock_items, (it.status = Status.Issued ↔ activeLineCount db it.id = 1)

instance (db : Store) : Decidable (InvC1 db) := by
  unfold InvC1; infer_instance

/-- Well-formedness facts true of stores built by the operations:
transaction and item ids are distinct and bounded by the list length
(ids are assigned as `len + 1`), and every line refers to an existing
transaction and item. -/
def Wf (db : Store) : Prop :=
  (∀ t ∈ db.mock_transactions, t.id ≤ db.mock_transactions.length) ∧
  (db.mock_transactions.map Transaction.id).Nodup ∧
  (∀ it ∈ db.mock_items, it.id ≤ db.mock_items.length) ∧
  (db.mock_items.map Item.id).Nodup ∧
  (∀ ti ∈ db.mock_transaction_items,
    ti.transaction_id ≤ db.mock_transactions.length ∧ ti.item_id ≤ db.mock_items.length)

instance (db : Store) : Decidable (Wf db) := by
  unfold Wf; infer_instance

/-! ## Helper lemmas about `updateFirstBy` and `find?` -/

theorem updateFirstBy_of_find?_none {p : α → Bool} {f : α → α} {l : List α}
    (h : l.find? p = none) : updateFirstBy p f l = l := by
  induction l with
  | nil => rfl
  | cons x rest ih =>
    rw [List.find?_cons] at h
    by_cases hx : p x
    · simp [hx] at h
    · simp only [updateFirstBy, hx]
      simp only [hx, Bool.false_eq_true, if_false] at h ⊢
      rw [ih h]

theorem length_updateFirstBy (p : α → Bool) (f : α → α) (l : List α) :
    (updateFirstBy p f l).length = l.length := by
  induction l with
  | nil => rfl
  | cons x rest ih =>
    by_cases hx : p x <;> simp [updateFirstBy, hx, ih]

theorem mem_updateFirstBy {p : α → Bool} {f : α → α} {l : List α} {y : α}
    (h : y ∈ updateFirstBy p f l) : y ∈ l ∨ ∃ x ∈ l, p x ∧ y = f x := by
  induction l with
  | nil => simp [updateFirstBy] at h
  | cons x rest ih =>
    by_cases hx : p x
    · simp only [updateFirstBy, hx, if_true] at h
      rcases List.mem_cons.mp h with h | h
      · exact Or.inr ⟨x, List.mem_cons_self _ _, hx, h⟩
      · exact Or.inl (List.mem_cons_of_mem _ h)
    · simp only [updateFirstBy, hx, Bool.false_eq_true, if_false] at h
      rcases List.mem_cons.mp h with h | h
      · exact Or.inl (by simp [h])
      · rcases ih h with h | ⟨z, hz, hpz, hy⟩
        · exact Or.inl (List.mem_cons_of_mem _ h)
        · exact Or.inr ⟨z, List.mem_cons_of_mem _ hz, hpz, hy⟩

theorem map_key_updateFirstBy (key : α → Nat) (p : α → Bool) (f : α → α)
    (hf : ∀ x, key (f x) = key x) (l : List α) :
    (updateFirstBy p f l).map key = l.map key := by
  induction l with
  | nil => rfl
  | cons x rest ih =>
    by_cases hx : p x <;> simp [updateFirstBy, hx, ih, hf]

theorem find?_key_updateFirstBy_ne (key : α → Nat) (f : α → α)
    (hf : ∀ x, key (f x) = key x) {i j : Nat} (hij : j ≠ i) (l : List α) :
    (updateFirstBy (fun x => key x == i) f l).find? (fun x => key x == j) =
      l.find? (fun x => key x == j) := by
  induction l with
  | nil => rfl
  | cons x rest ih =>
    by_cases hx : key x == i
    · have hki : key x = i := by simpa using hx
      have hxj : (key (f x) == j) = false := by
        rw [hf]
        exact beq_eq_false_iff_ne.mpr (by omega)
      have hxj' : (key x == j) = false := beq_eq_false_iff_ne.mpr (by omega)
      simp [updateFirstBy, hx, List.find?_cons, hxj, hxj']
    · simp only [updateFirstBy, hx, Bool.false_eq_true, if_false]
      by_cases hxj : key x == j
      · simp [List.find?_cons, hxj]
      · simp [List.find?_cons, hxj, ih]

theorem find?_key_updateFirstBy_self (key : α → Nat) (f : α → α)
    (hf : ∀ x, key (f x) = key x) (i : Nat) (l : List α) :
    (updateFirstBy (fun x => key x == i) f l).find? (fun x => key x == i) =
      (l.find? (fun x => key x == i)).map f := by
  induction l with
  | nil => rfl
  | cons x rest ih =>
    by_cases hx : key x == i
    · have : (key (f x) == i) = true := by simp only [hf]; exact hx
      simp [updateFirstBy, hx, List.find?_cons, this]
    · simp [updateFirstBy, hx, List.find?_cons, ih]

theorem updateFirstBy_eq_map (key : α → Nat) {f : α → α} {i : Nat} {l : List α}
    (hnd : (l.map key).Nodup) :
    updateFirstBy (fun x => key x == i) f l =
      l.map (fun x => if key x == i then f x else x) := by
  induction l with
  | nil => rfl
  | cons x rest ih =>
    simp only [List.map_cons, List.nodup_cons] at hnd
    by_cases hx : key x == i
    · have hki : key x = i := by simpa using hx
      have hrest : rest.map (fun x => if key x == i then f x else x) = rest := by
        calc rest.map (fun x => if key x == i then f x else x)
            = rest.map id := by
              apply List.map_congr_left
              intro y hy
              have hfalse : (key y == i) = false := by
                refine beq_eq_false_iff_ne.mpr ?_
                intro h
                have hmem := List.mem_map_of_mem key hy
                rw [h, ← hki] at hmem
                exact hnd.1 hmem
              simp [hfalse]
          _ = rest := List.map_id rest
      simp only [updateFirstBy]
      rw [if_pos hx, List.map_cons, if_pos hx, hrest]
    · simp only [updateFirstBy]
      rw [if_neg hx, List.map_cons, if_neg hx, ih hnd.2]

/-! ## Concrete stores used in counterexamples and witnesses -/

/-- The fixture data of `_init_mock_data`, with the seed timestamp taken
as second 0 (the second transaction is 10 days = 864000 seconds older). -/
def seedStore : Store :=
  { mock_inventory := [
      { id := 1, name := "Arduino", total_qty := 10, course := some "ECE101" },
      { id := 2, name := "Raspberry Pi", total_qty := 5, course := some "CS201" },
      { id := 3, name := "Sensor", total_qty := 20, course := some "ECE101" }],
    mock_items := [
      { id := 1, serial_number := "ARD001", status := Status.Available, inventory_id := 1 },
      { id := 2, serial_number := "ARD002", status := Status.Available, inventory_id := 1 },
      { id := 3, serial_number := "ARD003", status := Status.Issued, inventory_id := 1 },
      { id := 4, serial_number := "ARD004", status := Status.Damaged, inventory_id := 1 },
      { id := 5, serial_number := "RPI001", status := Status.Available, inventory_id := 2 },
      { id := 6, serial_number := "RPI002", status := Status.Available, inventory_id := 2 },
      { id := 7, serial_number := "SEN001", status := Status.Available, inventory_id := 3 }],
    mock_students := [
      { id := 1, student_id := "STU001", name := "John Doe" },
      { id := 2, student_id := "STU002", name := "Jane Smith" },
      { id := 3, student_id := "STU003", name := "Bob Johnson" }],
    mock_staff := [
      { id := 1, staff_id := "STAFF001", name := "Dr. Sarah Chen" },
      { id := 2, staff_id := "STAFF002", name := "Prof. Michael Brown" },
      { id := 3, staff_id := "STAFF003", name := "Lab Assistant" }],
    mock_transactions := [
      { id := 1, student_id := 1, status := TxStatus.Active, created_at := 0,
        issue_date := 0, issuer_id := some 1 },
      { id := 2, student_id := 2, status := TxStatus.Active, created_at := -864000,
        issue_date := -864000, issuer_id := some 2 }],
    mock_transaction_items := [
      { id := 1, transaction_id := 1, item_id := 3 },
      { id := 2, transaction_id := 2, item_id := 5 }] }

/-- A transaction that is already closed (closed at second 100). -/
def txClosed : Transaction :=
  { id := 1, student_id := 1, status := TxStatus.Closed, created_at := 0,
    issue_date := 0, closed_at := some 100 }

/-- An issued item. -/
def itemIssued : Item :=
  { id := 1, serial_number := "ARD001", status := Status.Issued, inventory_id := 1 }

/-- A store whose only transaction is already closed. -/
def dbClosed : Store :=
  { mock_items := [itemIssued],
    mock_transactions := [txClosed],
    mock_transaction_items := [{ id := 1, transaction_id := 1, item_id := 1 }] }

/-- A store with an issued item and no transactions at all. -/
def dbNoTx : Store := { mock_items := [itemIssued] }

/-- A store with a single student. -/
def dbStudents : Store :=
  { mock_students := [{ id := 1, student_id := "STU001", name := "John Doe" }] }

/-! ## C6 — serial prefix derivation -/

/-- Modelled from the claim's words (C6): uppercase the name and remove
internal whitespace FIRST, then take the first three characters and pad
with `X`.  Used only for comparison with the source's `codePfx`. -/
def claimPfx (name : String) : String :=
  let p := (removeSpaces (upperChars name.data)).take 3
  String.mk (if p.length < 3 then p ++ List.replicate (3 - p.length) 'X' else p)

/-- C6 counterexample: the source truncates to three characters BEFORE
removing spaces, so for the name "Io Board" the derived prefix is "IOX",
not "IOB" as the claim asserts. -/
theorem C6_counterexample :
    codePfx "Io Board" = "IOX" ∧ claimPfx "Io Board" = "IOB" ∧
      codePfx "Io Board" ≠ claimPfx "Io Board" := by decide

/-- C6 amended: the derived prefix is the first three characters of the
name, uppercased with spaces removed, right-padded with `X` —
truncation happens before whitespace removal, so "Io Board" gives "IOX"
(while "Pi" still gives "PIX" and "Arduino" gives "ARD"); the result
always has exactly three characters and never contains a space. -/
theorem C6_amended :
    (∀ name : String, (codePfx name).data.length = 3 ∧ ' ' ∉ (codePfx name).data) ∧
    codePfx "Io Board" = "IOX" ∧ codePfx "Pi" = "PIX" ∧ codePfx "Arduino" = "ARD" ∧
    (∀ name : String,
      (codePfx name).data =
        (removeSpaces (upperChars (name.data.take 3))) ++
          List.replicate (3 - (removeSpaces (upperChars (name.data.take 3))).length) 'X') := by
  have hdata : ∀ name : String, (codePfx name).data =
      (if (removeSpaces (upperChars (name.data.take 3))).length < 3 then
        removeSpaces (upperChars (name.data.take 3)) ++
          List.replicate (3 - (removeSpaces (upperChars (name.data.take 3))).length) 'X'
      else removeSpaces (upperChars (name.data.take 3))) := fun _ => rfl
  have hlen : ∀ name : String, (removeSpaces (upperChars (name.data.take 3))).length ≤ 3 := by
    intro name
    have h1 : (removeSpaces (upperChars (name.data.take 3))).length ≤
        (upperChars (name.data.take 3)).length := List.length_filter_le _ _
    have h2 : (upperChars (name.data.take 3)).length = (name.data.take 3).length :=
      List.length_map _ _
    have h3 : (name.data.take 3).length ≤ 3 := by
      rw [List.length_take]
      exact min_le_left _ _
    omega
  refine ⟨?_, by decide, by decide, by decide, ?_⟩
  · intro name
    rw [hdata name]
    constructor
    · by_cases h : (removeSpaces (upperChars (name.data.take 3))).length < 3
      · rw [if_pos h]
        simp only [List.length_append, List.length_replicate]
        omega
      · rw [if_neg h]
        have := hlen name
        omega
    · intro hmem
      have hinp : ∀ c ∈ removeSpaces (upperChars (name.data.take 3)), c ≠ ' ' := by
        intro c hc
        have := List.of_mem_filter hc
        simpa using this
      by_cases h : (removeSpaces (upperChars (name.data.take 3))).length < 3
      · rw [if_pos h] at hmem
        rcases List.mem_append.mp hmem with hmem | hmem
        · exact hinp _ hmem rfl
        · have := List.eq_of_mem_replicate hmem
          simp at this
      · rw [if_neg h] at hmem
        exact hinp _ hmem rfl
  · intro name
    rw [hdata name]
    by_cases h : (removeSpaces (upperChars (name.data.take 3))).length < 3
    · rw [if_pos h]
    · rw [if_neg h]
      have h3 : 3 - (removeSpaces (upperChars (name.data.take 3))).length = 0 := by omega
      rw [h3, List.replicate_zero, List.append_nil]

/-! ## C9 — deleteStudent on an absent id -/

/-- C9 counterexample: deleting a student id with no matching record
returns `True` (reported as success) and the store is unchanged — a
silent no-op reported as success, contradicting the claim that it
reports failure. -/
theorem C9_counterexample :
    (delete_student dbStudents 2).2 = true ∧ (delete_student dbStudents 2).1 = dbStudents := by
  decide

/-- C9 amended: in the in-memory backend `delete_student` reports
success unconditionally: it removes exactly the students whose id
matches, and deleting an absent id is a silent no-op that still returns
`True`. -/
theorem C9_amended :
    (∀ db sid, (delete_student db sid).2 = true) ∧
    (∀ db sid, (∀ s ∈ db.mock_students, s.id ≠ sid) → delete_student db sid = (db, true)) ∧
    (∀ db sid s, s ∈ (delete_student db sid).1.mock_students ↔
      s ∈ db.mock_students ∧ s.id ≠ sid) := by
  refine ⟨fun db sid => rfl, ?_, ?_⟩
  · intro db sid h
    have hfil : db.mock_students.filter (fun s => s.id != sid) = db.mock_students :=
      List.filter_eq_self.mpr (fun s hs => by simpa using h s hs)
    simp only [delete_student, hfil]
  · intro db sid s
    simp [delete_student, List.mem_filter]

/-- C9 amended witness at a concrete input. -/
theorem C9_amended_witness : delete_student dbStudents 5 = (dbStudents, true) :=
  C9_amended.2.1 dbStudents 5 (by decide)

/-! ## Lemmas about `return_item` / `report_damaged` lookups -/

theorem findTx_return_item (db : Store) (now : Int) (iid tid : Nat) :
    findTx (return_item db now iid tid).1 tid =
      (findTx db tid).map
        (fun t => { t with status := TxStatus.Closed, closed_at := some now }) := by
  unfold findTx return_item
  exact find?_key_updateFirstBy_self Transaction.id
    (fun t => { t with status := TxStatus.Closed, closed_at := some now })
    (fun _ => rfl) tid db.mock_transactions

theorem findItem_return_item (db : Store) (now : Int) (iid tid : Nat) :
    findItem (return_item db now iid tid).1 iid =
      (findItem db iid).map (fun it => { it with status := Status.Available }) := by
  unfold findItem return_item
  exact find?_key_updateFirstBy_self Item.id
    (fun it => { it with status := Status.Available })
    (fun _ => rfl) iid db.mock_items

theorem findTx_report_damaged (db : Store) (now : Int) (iid tid : Nat) :
    findTx (report_damaged db now iid tid).1 tid =
      (findTx db tid).map
        (fun t => { t with status := TxStatus.Closed, closed_at := some now }) := by
  unfold findTx report_damaged
  exact find?_key_updateFirstBy_self Transaction.id
    (fun t => { t with status := TxStatus.Closed, closed_at := some now })
    (fun _ => rfl) tid db.mock_transactions

theorem findItem_report_damaged (db : Store) (now : Int) (iid tid : Nat) :
    findItem (report_damaged db now iid tid).1 iid =
      (findItem db iid).map (fun it => { it with status := Status.Damaged }) := by
  unfold findItem report_damaged
  exact find?_key_updateFirstBy_self Item.id
    (fun it => { it with status := Status.Damaged })
    (fun _ => rfl) iid db.mock_items

theorem return_item_absent (db : Store) (now : Int) (iid tid : Nat)
    (hi : findItem db iid = none) (ht : findTx db tid = none) :
    return_item db now iid tid = (db, true) := by
  unfold findItem at hi
  unfold findTx at ht
  unfold return_item
  rw [updateFirstBy_of_find?_none hi, updateFirstBy_of_find?_none ht]

theorem report_damaged_absent (db : Store) (now : Int) (iid tid : Nat)
    (hi : findItem db iid = none) (ht : findTx db tid = none) :
    report_damaged db now iid tid = (db, true) := by
  unfold findItem at hi
  unfold findTx at ht
  unfold report_damaged
  rw [updateFirstBy_of_find?_none hi, updateFirstBy_of_find?_none ht]

/-! ## C10 — returnItem / reportDamaged mutate independently -/

/-- C10: `return_item` and `report_damaged` never check that a
transaction line links the two ids.  For EVERY store and EVERY pair of
ids they report success; the first item with the given id is set to
`Available` (resp. `Damaged`) regardless of any transaction linkage;
the first transaction with the given id is closed; and when neither id
exists the call still reports success with the store unchanged. -/
theorem C10_independent_mutation :
    (∀ db : Store, ∀ now : Int, ∀ iid tid : Nat,
      (return_item db now iid tid).2 = true ∧ (report_damaged db now iid tid).2 = true) ∧
    (∀ db : Store, ∀ now : Int, ∀ iid tid : Nat,
      findItem db iid = none → findTx db tid = none →
      return_item db now iid tid = (db, true) ∧ report_damaged db now iid tid = (db, true)) ∧
    (∀ db : Store, ∀ now : Int, ∀ iid tid : Nat, ∀ it : Item,
      findItem db iid = some it →
      findItem (return_item db now iid tid).1 iid = some { it with status := Status.Available } ∧
      findItem (report_damaged db now iid tid).1 iid = some { it with status := Status.Damaged }) ∧
    (∀ db : Store, ∀ now : Int, ∀ iid tid : Nat, ∀ t : Transaction,
      findTx db tid = some t →
      findTx (return_item db now iid tid).1 tid =
        some { t with status := TxStatus.Closed, closed_at := some now } ∧
      findTx (report_damaged db now iid tid).1 tid =
        some { t with status := TxStatus.Closed, closed_at := some now }) := by
  refine ⟨fun db now iid tid => ⟨rfl, rfl⟩, ?_, ?_, ?_⟩
  · intro db now iid tid hi ht
    exact ⟨return_item_absent db now iid tid hi ht, report_damaged_absent db now iid tid hi ht⟩
  · intro db now iid tid it hit
    constructor
    · rw [findItem_return_item, hit]; rfl
    · rw [findItem_report_damaged, hit]; rfl
  · intro db now iid tid t ht
    constructor
    · rw [findTx_return_item, ht]; rfl
    · rw [findTx_report_damaged, ht]; rfl

/-- C10 witness: item 3 of the seed store was issued under transaction 1,
yet `return_item` with the unrelated transaction id 2 happily sets it to
`Available` and reports success; and with two absent ids the call still
succeeds with the store unchanged. -/
theorem C10_independent_mutation_witness :
    (findItem (return_item seedStore 5 3 2).1 3 =
      some { id := 3, serial_number := "ARD003", status := Status.Available,
             inventory_id := 1 } ∧
     findItem (report_damaged seedStore 5 3 2).1 3 =
      some { id := 3, serial_number := "ARD003", status := Status.Damaged,
             inventory_id := 1 }) ∧
    (return_item seedStore 5 99 99 = (seedStore, true) ∧
     report_damaged seedStore 5 99 99 = (seedStore, true)) :=
  ⟨C10_independent_mutation.2.2.1 seedStore 5 3 2
      { id := 3, serial_number := "ARD003", status := Status.Issued, inventory_id := 1 } rfl,
   C10_independent_mutation.2.1 seedStore 5 99 99 (by decide) (by decide)⟩

/-! ## C3 — returning an already-closed transaction -/

/-- C3 counterexample: `dbClosed` holds transaction 1 already `Closed`
with `closed_at = 100`.  A further `return_item` at time 200 reports
success (`True`, not an `AlreadyClosed` failure), overwrites `closed_at`
with 200 and re-mutates the item's status — the state is NOT left
unchanged. -/
theorem C3_counterexample :
    (return_item dbClosed 200 1 1).2 = true ∧
    (return_item dbClosed 200 1 1).1 ≠ dbClosed ∧
    findTx (return_item dbClosed 200 1 1).1 1 = some { txClosed with closed_at := some 200 } ∧
    findItem (return_item dbClosed 200 1 1).1 1 =
      some { itemIssued with status := Status.Available } := by
  decide

/-- C3 amended: there is no `AlreadyClosed` error.  Invoking
`return_item` on an already-`Closed` transaction succeeds (returns
`True`) and double-mutates state: the transaction's `closed_at` is
overwritten with the current time and the item (when present) is set to
`Available` again. -/
theorem C3_amended (db : Store) (now : Int) (iid tid : Nat) (t : Transaction)
    (ht : findTx db tid = some t) (hclosed : t.status = TxStatus.Closed) :
    (return_item db now iid tid).2 = true ∧
    findTx (return_item db now iid tid).1 tid =
      some { t with status := TxStatus.Closed, closed_at := some now } ∧
    (∀ it : Item, findItem db iid = some it →
      findItem (return_item db now iid tid).1 iid =
        some { it with status := Status.Available }) := by
  refine ⟨rfl, ?_, ?_⟩
  · rw [findTx_return_item, ht]; rfl
  · intro it hit
    rw [findItem_return_item, hit]; rfl

/-- C3 amended witness: the concrete already-closed store. -/
theorem C3_amended_witness :
    (return_item dbClosed 200 1 1).2 = true ∧
    findTx (return_item dbClosed 200 1 1).1 1 =
      some { txClosed with status := TxStatus.Closed, closed_at := some 200 } ∧
    (∀ it : Item, findItem dbClosed 1 = some it →
      findItem (return_item dbClosed 200 1 1).1 1 =
        some { it with status := Status.Available }) :=
  C3_amended dbClosed 200 1 1 txClosed (by decide) rfl

/-! ## C4 — returnItem with an absent transaction id -/

/-- C4 counterexample: `dbNoTx` has no transaction at all, yet
`return_item` with the absent transaction id 99 reports success (`True`,
not a `NotFound` failure) and still mutates the item's status — state IS
changed. -/
theorem C4_counterexample :
    (return_item dbNoTx 50 1 99).2 = true ∧
    findItem (return_item dbNoTx 50 1 99).1 1 =
      some { itemIssued with status := Status.Available } ∧
    (return_item dbNoTx 50 1 99).1 ≠ dbNoTx := by
  decide

/-- C4 amended: `return_item` never checks the transaction id.  It
always returns `True`; an absent transaction id leaves the transaction
list unchanged (rather than failing with `NotFound`), the item is set
`Available` independently whenever it exists; and when the transaction
exists and is `Active` it is closed with `closed_at = now` as the claim
describes. -/
theorem C4_amended (db : Store) (now : Int) (iid tid : Nat) :
    (return_item db now iid tid).2 = true ∧
    (findTx db tid = none →
      (return_item db now iid tid).1.mock_transactions = db.mock_transactions) ∧
    (findItem db iid = none →
      (return_item db now iid tid).1.mock_items = db.mock_items) ∧
    (∀ t : Transaction, findTx db tid = some t → t.status = TxStatus.Active →
      findTx (return_item db now iid tid).1 tid =
        some { t with status := TxStatus.Closed, closed_at := some now }) ∧
    (∀ it : Item, findItem db iid = some it →
      findItem (return_item db now iid tid).1 iid =
        some { it with status := Status.Available }) := by
  refine ⟨rfl, ?_, ?_, ?_, ?_⟩
  · intro ht
    unfold findTx at ht
    exact updateFirstBy_of_find?_none ht
  · intro hi
    unfold findItem at hi
    exact updateFirstBy_of_find?_none hi
  · intro t ht _
    rw [findTx_return_item, ht]; rfl
  · intro it hit
    rw [findItem_return_item, hit]; rfl

/-- C4 amended witness: absent transaction id 99 against the seed
store. -/
theorem C4_amended_witness :
    (return_item seedStore 50 1 99).2 = true ∧
    (return_item seedStore 50 1 99).1.mock_transactions = seedStore.mock_transactions := by
  refine ⟨(C4_amended seedStore 50 1 99).1, (C4_amended seedStore 50 1 99).2.1 (by decide)⟩

/-! ## C2 — rejected issue calls leave the store untouched -/

/-- Status of the item an id refers to (the status examined by
`_handle_serial_number`). -/
def getStatus (db : Store) (i : Nat) : Option Status :=
  (findItem db i).map Item.status

theorem firstIssueError_ne_none_of_bad {db : Store} {ov : Bool} {ids : List Nat}
    (h : ∃ i ∈ ids, getStatus db i = some Status.Issued ∨
      (getStatus db i = some Status.Damaged ∧ ov = false)) :
    firstIssueError db ov ids ≠ none := by
  induction ids with
  | nil => simp at h
  | cons i rest ih =>
    obtain ⟨j, hj, hbad⟩ := h
    unfold firstIssueError
    cases hfi : findItem db i with
    | none => simp
    | some x =>
      obtain ⟨xid, xser, xst, xinv⟩ := x
      cases xst with
      | Issued => simp
      | Available =>
        have hjr : j ∈ rest := by
          rcases List.mem_cons.mp hj with rfl | hjr
          · exfalso
            unfold getStatus at hbad
            rw [hfi] at hbad
            simp at hbad
          · exact hjr
        exact ih ⟨j, hjr, hbad⟩
      | Damaged =>
        cases hov : ov with
        | false => simp
        | true =>
          show (if (true : Bool) = true then firstIssueError db true rest else
            some IssueError.DamagedConfirmationRequired) ≠ none
          rw [if_pos rfl]
          have hjr : j ∈ rest := by
            rcases List.mem_cons.mp hj with rfl | hjr
            · exfalso
              unfold getStatus at hbad
              rw [hfi, hov] at hbad
              simp at hbad
            · exact hjr
          subst hov
          exact ih ⟨j, hjr, hbad⟩

theorem firstIssueError_eq_alreadyIssued {db : Store} {ov : Bool} {ids : List Nat}
    (hres : ∀ i ∈ ids, getStatus db i ≠ none)
    (hiss : ∃ i ∈ ids, getStatus db i = some Status.Issued)
    (hnodam : ∀ i ∈ ids, ¬(getStatus db i = some Status.Damaged ∧ ov = false)) :
    firstIssueError db ov ids = some IssueError.AlreadyIssued := by
  induction ids with
  | nil => simp at hiss
  | cons i rest ih =>
    obtain ⟨j, hj, hjiss⟩ := hiss
    unfold firstIssueError
    cases hfi : findItem db i with
    | none =>
      exact absurd (by unfold getStatus; rw [hfi]; rfl)
        (hres i (List.mem_cons_self i rest))
    | some x =>
      obtain ⟨xid, xser, xst, xinv⟩ := x
      cases xst with
      | Issued => rfl
      | Available =>
        have hjr : j ∈ rest := by
          rcases List.mem_cons.mp hj with rfl | hjr
          · exfalso
            unfold getStatus at hjiss
            rw [hfi] at hjiss
            simp at hjiss
          · exact hjr
        exact ih (fun k hk => hres k (List.mem_cons_of_mem i hk)) ⟨j, hjr, hjiss⟩
          (fun k hk => hnodam k (List.mem_cons_of_mem i hk))
      | Damaged =>
        have hov : ov = true := by
          have hd := hnodam i (List.mem_cons_self i rest)
          unfold getStatus at hd
          rw [hfi] at hd
          cases ov with
          | true => rfl
          | false => exact absurd ⟨rfl, rfl⟩ hd
        show (if ov = true then firstIssueError db ov rest else
          some IssueError.DamagedConfirmationRequired) = some IssueError.AlreadyIssued
        rw [hov, if_pos rfl]
        have hjr : j ∈ rest := by
          rcases List.mem_cons.mp hj with rfl | hjr
          · exfalso
            unfold getStatus at hjiss
            rw [hfi] at hjiss
            simp at hjiss
          · exact hjr
        subst hov
        exact ih (fun k hk => hres k (List.mem_cons_of_mem i hk)) ⟨j, hjr, hjiss⟩
          (fun k hk => hnodam k (List.mem_cons_of_mem i hk))

theorem firstIssueError_eq_damagedConfirmation {db : Store} {ids : List Nat}
    (hres : ∀ i ∈ ids, getStatus db i ≠ none)
    (hdam : ∃ i ∈ ids, getStatus db i = some Status.Damaged)
    (hnoiss : ∀ i ∈ ids, getStatus db i ≠ some Status.Issued) :
    firstIssueError db false ids = some IssueError.DamagedConfirmationRequired := by
  induction ids with
  | nil => simp at hdam
  | cons i rest ih =>
    obtain ⟨j, hj, hjdam⟩ := hdam
    unfold firstIssueError
    cases hfi : findItem db i with
    | none =>
      exact absurd (by unfold getStatus; rw [hfi]; rfl)
        (hres i (List.mem_cons_self i rest))
    | some x =>
      obtain ⟨xid, xser, xst, xinv⟩ := x
      cases xst with
      | Issued =>
        exfalso
        have hni := hnoiss i (List.mem_cons_self i rest)
        unfold getStatus at hni
        rw [hfi] at hni
        exact hni rfl
      | Damaged => rfl
      | Available =>
        have hjr : j ∈ rest := by
          rcases List.mem_cons.mp hj with rfl | hjr
          · exfalso
            unfold getStatus at hjdam
            rw [hfi] at hjdam
            simp at hjdam
          · exact hjr
        exact ih (fun k hk => hres k (List.mem_cons_of_mem i hk)) ⟨j, hjr, hjdam⟩
          (fun k hk => hnoiss k (List.mem_cons_of_mem i hk))

/-- C2: a rejected issue call changes nothing.  An empty cart is refused
outright; if any requested item is currently `Issued`, or `Damaged`
without the override flag, the composite operation fails with some error
and creates no transaction, no transaction line, and no status change
(the store is returned untouched); when every id resolves, the reported
error is `AlreadyIssued` when an `Issued` item is present (and no
unconfirmed damaged one), and `DamagedConfirmationRequired` when a
`Damaged` item is present without override (and no issued one). -/
theorem C2_issue_rejections :
    (∀ db : Store, ∀ now : Int, ∀ sid : Nat, ∀ iid : Option Nat, ∀ ov : Bool,
      issue db now sid [] iid ov = (db, none, some IssueError.EmptyCart)) ∧
    (∀ db : Store, ∀ now : Int, ∀ sid : Nat, ∀ ids : List Nat, ∀ iid : Option Nat, ∀ ov : Bool,
      (∃ i ∈ ids, getStatus db i = some Status.Issued ∨
        (getStatus db i = some Status.Damaged ∧ ov = false)) →
      (issue db now sid ids iid ov).1 = db ∧ (issue db now sid ids iid ov).2.1 = none ∧
        (issue db now sid ids iid ov).2.2 ≠ none) ∧
    (∀ db : Store, ∀ now : Int, ∀ sid : Nat, ∀ ids : List Nat, ∀ iid : Option Nat, ∀ ov : Bool,
      ids ≠ [] →
      (∀ i ∈ ids, getStatus db i ≠ none) →
      (∃ i ∈ ids, getStatus db i = some Status.Issued) →
      (∀ i ∈ ids, ¬(getStatus db i = some Status.Damaged ∧ ov = false)) →
      issue db now sid ids iid ov = (db, none, some IssueError.AlreadyIssued)) ∧
    (∀ db : Store, ∀ now : Int, ∀ sid : Nat, ∀ ids : List Nat, ∀ iid : Option Nat,
      ids ≠ [] →
      (∀ i ∈ ids, getStatus db i ≠ none) →
      (∃ i ∈ ids, getStatus db i = some Status.Damaged) →
      (∀ i ∈ ids, getStatus db i ≠ some Status.Issued) →
      issue db now sid ids iid false = (db, none, some IssueError.DamagedConfirmationRequired)) := by
  refine ⟨fun db now sid iid ov => rfl, ?_, ?_, ?_⟩
  · intro db now sid ids iid ov h
    have hne : ids ≠ [] := by
      rintro rfl
      simp at h
    have hferr := firstIssueError_ne_none_of_bad h
    unfold issue
    rw [if_neg (by simpa using hne)]
    cases hfe : firstIssueError db ov ids with
    | none => exact absurd hfe hferr
    | some e => exact ⟨rfl, rfl, by simp⟩
  · intro db now sid ids iid ov hne hres hiss hnodam
    unfold issue
    rw [if_neg (by simpa using hne),
      firstIssueError_eq_alreadyIssued hres hiss hnodam]
  · intro db now sid ids iid hne hres hdam hnoiss
    unfold issue
    rw [if_neg (by simpa using hne),
      firstIssueError_eq_damagedConfirmation hres hdam hnoiss]

/-- C2 witness: in the seed store item 3 is `Issued` and item 4 is
`Damaged`; issuing them is rejected with the respective error and the
store is unchanged. -/
theorem C2_issue_rejections_witness :
    issue seedStore 0 1 [1, 3] (some 1) false =
      (seedStore, none, some IssueError.AlreadyIssued) ∧
    issue seedStore 0 1 [4] (some 1) false =
      (seedStore, none, some IssueError.DamagedConfirmationRequired) :=
  ⟨C2_issue_rejections.2.2.1 seedStore 0 1 [1, 3] (some 1) false (by decide) (by decide)
      (by decide) (by decide),
   C2_issue_rejections.2.2.2 seedStore 0 1 [4] (some 1) (by decide) (by decide)
      (by decide) (by decide)⟩

/-! ## C8 — invalid bulk-import rows are skipped silently -/

/-- C8: a bulk-import row whose stripped component name is empty or
whose quantity is not positive is skipped: it creates no Inventory and
no Item, mutates nothing, and contributes to neither returned count —
both for the single row body and inside a whole import sequence. -/
theorem C8_skip_invalid_rows :
    (∀ db : Store, ∀ a b : Nat, ∀ row : CsvRow,
      ((pyStrip row.componentName).data = [] ∨ row.quantity ≤ 0) →
      processRow db a b row = (db, a, b)) ∧
    (∀ db : Store, ∀ pre post : List CsvRow, ∀ row : CsvRow,
      ((pyStrip row.componentName).data = [] ∨ row.quantity ≤ 0) →
      bulk_import_inventory db (pre ++ row :: post) = bulk_import_inventory db (pre ++ post)) := by
  have h1 : ∀ db : Store, ∀ a b : Nat, ∀ row : CsvRow,
      ((pyStrip row.componentName).data = [] ∨ row.quantity ≤ 0) →
      processRow db a b row = (db, a, b) := by
    intro db a b row h
    unfold processRow
    rw [if_pos h]
  refine ⟨h1, ?_⟩
  intro db pre post row h
  unfold bulk_import_inventory
  rw [List.foldl_append, List.foldl_append, List.foldl_cons, h1 _ _ _ _ h]

/-- C8 witness: the empty-name row of the spec's scenario against the
seed store. -/
theorem C8_skip_invalid_rows_witness :
    processRow seedStore 0 0 { componentName := "", quantity := 5 } = (seedStore, 0, 0) :=
  C8_skip_invalid_rows.1 seedStore 0 0 { componentName := "", quantity := 5 } (by decide)

/-! ## C7 — overdueItems: strict threshold and floor day count -/

/-- Boundary scenario store: transaction 1 was issued exactly 7 days
(604800 seconds) before second 0, transaction 2 one second earlier. -/
def dbBoundary : Store :=
  { mock_items := [
      { id := 1, serial_number := "ARD001", status := Status.Issued, inventory_id := 1 },
      { id := 2, serial_number := "ARD002", status := Status.Issued, inventory_id := 1 }],
    mock_transactions := [
      { id := 1, student_id := 1, status := TxStatus.Active, created_at := -604800,
        issue_date := -604800 },
      { id := 2, student_id := 2, status := TxStatus.Active, created_at := -604801,
        issue_date := -604801 }],
    mock_transaction_items := [
      { id := 1, transaction_id := 1, item_id := 1 },
      { id := 2, transaction_id := 2, item_id := 2 }] }

/-- C7: `get_overdue_items` returns exactly the entries arising from an
`Active` transaction whose `issue_date` is strictly older than
`now - daysThreshold` days, expanded along its transaction lines to the
referenced items, each annotated with the transaction id and
`days_overdue = floor((now - issue_date) / 86400)`.  In particular, in
the boundary store a transaction exactly 7 days old is excluded while
one 7 days and 1 second old is included, with `days_overdue = 7`. -/
theorem C7_overdue_characterization :
    (∀ db : Store, ∀ now d : Int, ∀ e : OverdueEntry,
      e ∈ get_overdue_items db now d ↔
        ∃ tr ∈ db.mock_transactions, tr.status = TxStatus.Active ∧
          tr.issue_date < now - d * 86400 ∧
          e.transaction_id = tr.id ∧
          e.days_overdue = (now - tr.issue_date).fdiv 86400 ∧
          ∃ ti ∈ db.mock_transaction_items, ti.transaction_id = tr.id ∧
            findItem db ti.item_id = some e.item) ∧
    get_overdue_items dbBoundary 0 7 =
      [{ item := { id := 2, serial_number := "ARD002", status := Status.Issued,
                   inventory_id := 1 },
         transaction_id := 2, days_overdue := 7 }] := by
  refine ⟨?_, by decide⟩
  intro db now d e
  unfold get_overdue_items
  rw [List.mem_flatMap]
  constructor
  · rintro ⟨tr, htr, he⟩
    by_cases hc : tr.status = TxStatus.Active ∧ tr.issue_date < now - d * 86400
    · rw [if_pos hc] at he
      unfold overdueEntriesFor at he
      rw [List.mem_filterMap] at he
      obtain ⟨ti, hti, hmap⟩ := he
      by_cases htid : ti.transaction_id == tr.id
      · rw [if_pos htid] at hmap
        cases hfi : findItem db ti.item_id with
        | none => rw [hfi] at hmap; simp at hmap
        | some it =>
          rw [hfi] at hmap
          have he' : e = { item := it,
                           transaction_id := tr.id,
                           days_overdue := (now - tr.issue_date).fdiv 86400 } :=
            (Option.some.inj hmap).symm
          subst he'
          exact ⟨tr, htr, hc.1, hc.2, rfl, rfl, ti, hti, by simpa using htid, hfi⟩
      · rw [if_neg htid] at hmap
        simp at hmap
    · rw [if_neg hc] at he
      simp at he
  · rintro ⟨tr, htr, hact, hdate, het, hed, ti, hti, htit, hfi⟩
    refine ⟨tr, htr, ?_⟩
    rw [if_pos ⟨hact, hdate⟩]
    unfold overdueEntriesFor
    rw [List.mem_filterMap]
    refine ⟨ti, hti, ?_⟩
    rw [if_pos (by simpa using htit), hfi]
    obtain ⟨ei, etid, ed⟩ := e
    simp only at het hed
    rw [het, hed]
    rfl

/-! ## Decimal digit lemmas (for the serial-number claims) -/

theorem digitChar_toNat {d : Nat} (h : d < 10) : (Nat.digitChar d).toNat = 48 + d := by
  interval_cases d <;> rfl

theorem digitChar_isDigit {d : Nat} (h : d < 10) : (Nat.digitChar d).isDigit = true := by
  interval_cases d <;> decide

theorem digitsToNat_append_singleton (l : List Char) (c : Char) :
    digitsToNat (l ++ [c]) = digitsToNat l * 10 + (c.toNat - 48) := by
  unfold digitsToNat
  rw [List.foldl_append]
  rfl

theorem digitsToNat_natDigitsGo {fuel n : Nat} (h : n ≤ fuel) :
    digitsToNat (natDigitsGo fuel n) = n := by
  induction fuel generalizing n with
  | zero =>
    have hn : n = 0 := by omega
    subst hn
    decide
  | succ fuel ih =>
    unfold natDigitsGo
    by_cases h10 : n < 10
    · rw [if_pos h10]
      show digitsToNat [Nat.digitChar n] = n
      unfold digitsToNat
      simp [List.foldl_cons, digitChar_toNat h10]
    · rw [if_neg h10]
      have hdiv : n / 10 ≤ fuel := by
        have := Nat.div_lt_self (by omega : 0 < n) (by omega : 1 < 10)
        omega
      rw [digitsToNat_append_singleton, ih hdiv, digitChar_toNat (Nat.mod_lt n (by omega))]
      omega

theorem digitsToNat_natDigits (n : Nat) : digitsToNat (natDigits n) = n :=
  digitsToNat_natDigitsGo (Nat.le_refl n)

theorem natDigitsGo_all_digit (fuel n : Nat) (hn : n ≤ fuel) :
    ∀ c ∈ natDigitsGo fuel n, c.isDigit = true := by
  induction fuel generalizing n with
  | zero =>
    have hn0 : n = 0 := by omega
    subst hn0
    intro c hc
    simp only [natDigitsGo, List.mem_singleton] at hc
    subst hc
    decide
  | succ fuel ih =>
    intro c hc
    unfold natDigitsGo at hc
    by_cases h10 : n < 10
    · rw [if_pos h10] at hc
      rw [List.mem_singleton] at hc
      subst hc
      exact digitChar_isDigit h10
    · rw [if_neg h10] at hc
      rcases List.mem_append.mp hc with hc | hc
      · have hdiv : n / 10 ≤ fuel := by
          have := Nat.div_lt_self (by omega : 0 < n) (by omega : 1 < 10)
          omega
        exact ih (n / 10) hdiv c hc
      · rw [List.mem_singleton] at hc
        subst hc
        exact digitChar_isDigit (Nat.mod_lt n (by omega))

theorem natDigitsGo_ne_nil (fuel n : Nat) : natDigitsGo fuel n ≠ [] := by
  cases fuel with
  | zero => simp [natDigitsGo]
  | succ fuel =>
    unfold natDigitsGo
    by_cases h10 : n < 10
    · rw [if_pos h10]; simp
    · rw [if_neg h10]; simp

theorem digitsToNat_replicate_zero_append (k : Nat) (l : List Char) :
    digitsToNat (List.replicate k '0' ++ l) = digitsToNat l := by
  unfold digitsToNat
  rw [List.foldl_append]
  have hz : List.foldl (fun n c => n * 10 + (c.toNat - 48)) 0 (List.replicate k '0') = 0 := by
    induction k with
    | zero => rfl
    | succ k ihk => rw [List.replicate_succ, List.foldl_cons]; simpa using ihk
  rw [hz]

theorem pad3Chars_all_digit (n : Nat) : ∀ c ∈ pad3Chars n, c.isDigit = true := by
  intro c hc
  unfold pad3Chars at hc
  rcases List.mem_append.mp hc with hc | hc
  · have := List.eq_of_mem_replicate hc
    subst this
    decide
  · exact natDigitsGo_all_digit n n (Nat.le_refl n) c hc

theorem pad3Chars_ne_nil (n : Nat) : pad3Chars n ≠ [] := by
  unfold pad3Chars
  intro h
  rcases List.append_eq_nil.mp h with ⟨_, h2⟩
  exact natDigitsGo_ne_nil n n h2

theorem digitsToNat_pad3Chars (n : Nat) : digitsToNat (pad3Chars n) = n := by
  unfold pad3Chars
  rw [digitsToNat_replicate_zero_append]
  exact digitsToNat_natDigits n

/-- Parsing a generated zero-padded suffix gives back the number. -/
theorem pyParseNat_pad3Chars (n : Nat) : pyParseNat (String.mk (pad3Chars n)) = some n := by
  unfold pyParseNat
  rw [if_pos ⟨pad3Chars_ne_nil n, by
    rw [List.all_eq_true]
    intro c hc
    exact pad3Chars_all_digit n c hc⟩]
  rw [digitsToNat_pad3Chars]

/-! ## Serial-string lemmas -/

theorem mkSerial_data (p : String) (n : Nat) : (mkSerial p n).data = p.data ++ pad3Chars n := rfl

theorem isPrefixOf_append_self (l t : List Char) : l.isPrefixOf (l ++ t) = true := by
  induction l with
  | nil => cases t <;> rfl
  | cons c rest ih =>
    show (c == c && rest.isPrefixOf (rest ++ t)) = true
    rw [beq_self_eq_true, Bool.true_and, ih]

theorem pyStartsWith_mkSerial (p : String) (n : Nat) : pyStartsWith (mkSerial p n) p = true := by
  unfold pyStartsWith
  rw [mkSerial_data]
  exact isPrefixOf_append_self _ _

theorem pySliceFrom_mkSerial (p : String) (n : Nat) :
    pySliceFrom (mkSerial p n) p.length = String.mk (pad3Chars n) := by
  unfold pySliceFrom
  rw [mkSerial_data]
  show String.mk ((p.data ++ pad3Chars n).drop p.data.length) = String.mk (pad3Chars n)
  rw [List.drop_left]

theorem mkSerial_inj (p : String) {a b : Nat} (h : mkSerial p a = mkSerial p b) : a = b := by
  have hd : p.data ++ pad3Chars a = p.data ++ pad3Chars b := by
    have := congrArg String.data h
    rwa [mkSerial_data, mkSerial_data] at this
  have hp : pad3Chars a = pad3Chars b := List.append_cancel_left hd
  have := congrArg digitsToNat hp
  rwa [digitsToNat_pad3Chars, digitsToNat_pad3Chars] at this

/-! ## maxSerialLoop bounds -/

theorem le_maxSerialLoop (p : String) (invId : Nat) (items : List Item) (m : Nat) :
    m ≤ maxSerialLoop p invId items m := by
  induction items generalizing m with
  | nil => exact Nat.le_refl m
  | cons it rest ih =>
    unfold maxSerialLoop
    refine Nat.le_trans ?_ (ih _)
    by_cases hc : it.inventory_id == invId && pyStartsWith it.serial_number p
    · rw [if_pos hc]
      cases pyParseNat (pySliceFrom it.serial_number p.length) with
      | some n => exact Nat.le_max_left m n
      | none => exact Nat.le_refl m
    · rw [if_neg hc]

theorem parse_le_maxSerialLoop {p : String} {invId : Nat} {items : List Item}
    {it : Item} (hmem : it ∈ items) (hinv : it.inventory_id = invId)
    (hpre : pyStartsWith it.serial_number p = true)
    {k : Nat} (hparse : pyParseNat (pySliceFrom it.serial_number p.length) = some k)
    (m : Nat) : k ≤ maxSerialLoop p invId items m := by
  induction items generalizing m with
  | nil => simp at hmem
  | cons x rest ih =>
    unfold maxSerialLoop
    rcases List.mem_cons.mp hmem with rfl | hmem'
    · rw [if_pos (by rw [hinv, hpre]; simp), hparse]
      exact Nat.le_trans (Nat.le_max_right m k) (le_maxSerialLoop p invId rest _)
    · exact ih hmem' _

/-! ## genItemsLoop characterization -/

/-- Closed form of the items appended by `genItemsLoop`: the `j`-th new
item (0-based) has id `base + j + 1`, serial
`prefix + pad3(maxNum + i + j + 1)`, status `Available`. -/
def newItemsList (base invId : Nat) (p : String) (maxN i n : Nat) : List Item :=
  (List.range n).map (fun j =>
    { id := base + j + 1, serial_number := mkSerial p (maxN + i + j + 1),
      status := Status.Available, inventory_id := invId })

theorem genItemsLoop_eq (invId : Nat) (p : String) (maxN : Nat) :
    ∀ (n i : Nat) (items : List Item),
      genItemsLoop invId p maxN items i n =
        items ++ newItemsList items.length invId p maxN i n := by
  intro n
  induction n with
  | zero =>
    intro i items
    simp [genItemsLoop, newItemsList]
  | succ n ih =>
    intro i items
    show genItemsLoop invId p maxN
        (items ++ [{ id := items.length + 1, serial_number := mkSerial p (maxN + i + 1),
                     status := Status.Available, inventory_id := invId }]) (i + 1) n =
      items ++ newItemsList items.length invId p maxN i (n + 1)
    rw [ih (i + 1)]
    rw [List.append_assoc]
    congr 1
    unfold newItemsList
    rw [List.length_append, List.length_singleton, List.range_succ_eq_map, List.map_cons,
      List.map_map, List.singleton_append]
    have e1 : items.length + 0 + 1 = items.length + 1 := by omega
    have e2 : maxN + i + 0 + 1 = maxN + i + 1 := by omega
    rw [e1, e2]
    congr 1
    apply List.map_congr_left
    intro j hj
    simp only [Function.comp]
    have h1 : items.length + 1 + j + 1 = items.length + Nat.succ j + 1 := by omega
    have h2 : maxN + (i + 1) + j + 1 = maxN + i + Nat.succ j + 1 := by omega
    rw [h1, h2]

/-! ## processRowCore projections -/

theorem processRowCore_items (db : Store) (a b : Nat) (row : CsvRow) :
    (processRowCore db a b row).1.mock_items =
      genItemsLoop (targetInvId db (pyStrip row.componentName))
        (codePfx (pyStrip row.componentName))
        (maxSerialLoop (codePfx (pyStrip row.componentName))
          (targetInvId db (pyStrip row.componentName)) db.mock_items 0)
        db.mock_items 0 row.quantity.toNat := by
  unfold processRowCore targetInvId
  cases hfind : db.mock_inventory.find? (fun inv =>
      upperChars inv.name.data == upperChars (pyStrip row.componentName).data) with
  | some inv => rfl
  | none => rfl

theorem processRowCore_counts (db : Store) (a b : Nat) (row : CsvRow) :
    (processRowCore db a b row).2.2 = b + row.quantity.toNat := by
  unfold processRowCore
  cases hfind : db.mock_inventory.find? (fun inv =>
      upperChars inv.name.data == upperChars (pyStrip row.componentName).data) with
  | some inv => rfl
  | none => rfl

theorem processRowCore_tx_lines (db : Store) (a b : Nat) (row : CsvRow) :
    (processRowCore db a b row).1.mock_transactions = db.mock_transactions ∧
    (processRowCore db a b row).1.mock_transaction_items = db.mock_transaction_items := by
  unfold processRowCore
  cases hfind : db.mock_inventory.find? (fun inv =>
      upperChars inv.name.data == upperChars (pyStrip row.componentName).data) with
  | some inv => exact ⟨rfl, rfl⟩
  | none => exact ⟨rfl, rfl⟩

/-! ## C5 — bulk-import serial generation -/

/-- C5: for a non-skipped bulk-import row of quantity `N` targeting
inventory `X`, the items created are exactly `N` new `Available` items
of inventory `X` whose serials are `prefix + pad3(M + 1)` through
`prefix + pad3(M + N)`, where `M` is the maximum parsed numeric suffix
over the existing items of `X` whose serial starts with the prefix
(0 if none, unparsable suffixes ignored); no existing item of `X`
carries any serial with suffix above `M`, and the new serials are
pairwise distinct, so the serial set of inventory `X` stays
collision-free; the item counter grows by exactly `N`. -/
theorem C5_serial_generation (db : Store) (row : CsvRow) (a b : Nat)
    (pfxS : String) (X M N : Nat)
    (hname : (pyStrip row.componentName).data ≠ [])
    (hq : row.quantity = (N : Int))
    (hN : 0 < N)
    (hp : pfxS = codePfx (pyStrip row.componentName))
    (hX : X = targetInvId db (pyStrip row.componentName))
    (hM : M = maxSerialLoop pfxS X db.mock_items 0) :
    (processRow db a b row).1.mock_items =
      db.mock_items ++ newItemsList db.mock_items.length X pfxS M 0 N ∧
    (newItemsList db.mock_items.length X pfxS M 0 N).map Item.serial_number =
      (List.range N).map (fun j => mkSerial pfxS (M + j + 1)) ∧
    (∀ it ∈ db.mock_items, it.inventory_id = X →
      ∀ j : Nat, it.serial_number ≠ mkSerial pfxS (M + j + 1)) ∧
    ((List.range N).map (fun j => mkSerial pfxS (M + j + 1))).Nodup ∧
    (processRow db a b row).2.2 = b + N := by
  subst hp
  subst hX
  subst hM
  have hqn : row.quantity.toNat = N := by rw [hq]; simp
  have hguard : ¬((pyStrip row.componentName).data = [] ∨ row.quantity ≤ 0) := by
    push_neg
    refine ⟨hname, ?_⟩
    rw [hq]
    exact_mod_cast hN
  have hpr : processRow db a b row = processRowCore db a b row := by
    unfold processRow
    rw [if_neg hguard]
  refine ⟨?_, ?_, ?_, ?_, ?_⟩
  · rw [hpr, processRowCore_items, genItemsLoop_eq, hqn]
  · unfold newItemsList
    rw [List.map_map]
    apply List.map_congr_left
    intro j hj
    simp only [Function.comp]
    have h1 : maxSerialLoop (codePfx (pyStrip row.componentName))
        (targetInvId db (pyStrip row.componentName)) db.mock_items 0 + 0 + j + 1 =
      maxSerialLoop (codePfx (pyStrip row.componentName))
        (targetInvId db (pyStrip row.componentName)) db.mock_items 0 + j + 1 := by omega
    rw [h1]
  · intro it hmem hinv j heq
    have hpre : pyStartsWith it.serial_number (codePfx (pyStrip row.componentName)) = true := by
      rw [heq]
      exact pyStartsWith_mkSerial _ _
    have hparse : pyParseNat
        (pySliceFrom it.serial_number (codePfx (pyStrip row.componentName)).length) =
        some (maxSerialLoop (codePfx (pyStrip row.componentName))
          (targetInvId db (pyStrip row.componentName)) db.mock_items 0 + j + 1) := by
      rw [heq, pySliceFrom_mkSerial]
      exact pyParseNat_pad3Chars _
    have hle := parse_le_maxSerialLoop hmem hinv hpre hparse 0
    omega
  · have hinj : Function.Injective (fun j : Nat =>
        mkSerial (codePfx (pyStrip row.componentName))
          (maxSerialLoop (codePfx (pyStrip row.componentName))
            (targetInvId db (pyStrip row.componentName)) db.mock_items 0 + j + 1)) := by
      intro x y hxy
      have := mkSerial_inj _ hxy
      omega
    exact List.Nodup.map hinj (List.nodup_range N)
  · rw [hpr, processRowCore_counts, hqn]

/-- The Arduino store of the spec's serial-generation example:
`ARD001..ARD003` already exist for inventory 1. -/
def dbArduino : Store :=
  { mock_inventory := [{ id := 1, name := "Arduino", total_qty := 3 }],
    mock_items := [
      { id := 1, serial_number := "ARD001", status := Status.Available, inventory_id := 1 },
      { id := 2, serial_number := "ARD002", status := Status.Available, inventory_id := 1 },
      { id := 3, serial_number := "ARD003", status := Status.Issued, inventory_id := 1 }] }

/-- The Arduino import row of the spec's example. -/
def rowArd : CsvRow := { componentName := "Arduino", quantity := 5 }

/-- C5 witness: importing quantity 5 for "Arduino" over `ARD001..ARD003`
appends exactly the items with serials `ARD004..ARD008`. -/
theorem C5_serial_generation_witness :
    (processRow dbArduino 0 0 rowArd).1.mock_items =
      dbArduino.mock_items ++ newItemsList 3 1 "ARD" 3 0 5 ∧
    (newItemsList 3 1 "ARD" 3 0 5).map Item.serial_number =
      ["ARD004", "ARD005", "ARD006", "ARD007", "ARD008"] :=
  ⟨(C5_serial_generation dbArduino rowArd 0 0 "ARD" 1 3 5 (by decide) (by decide) (by decide)
      (by decide) (by decide) (by decide)).1,
   by decide⟩


/-! ## issueLoop characterization (for the C1 invariant) -/

/-- Closed form of the transaction lines appended by `issueLoop`. -/
def mkLines (base tid : Nat) : List Nat → List TransactionItem
  | [] => []
  | i :: rest => ⟨base + 1, tid, i⟩ :: mkLines (base + 1) tid rest

theorem issueLoop_lines (tid : Nat) :
    ∀ (ids : List Nat) (items : List Item) (lines : List TransactionItem),
      (issueLoop items lines tid ids).2 = lines ++ mkLines lines.length tid ids := by
  intro ids
  induction ids with
  | nil => intro items lines; simp [issueLoop, mkLines]
  | cons i rest ih =>
    intro items lines
    rw [show issueLoop items lines tid (i :: rest) =
      issueLoop (updateFirstBy (fun it => it.id == i)
          (fun it => { it with status := Status.Issued }) items)
        (lines ++ [⟨lines.length + 1, tid, i⟩]) tid rest from rfl]
    rw [ih]
    rw [List.append_assoc, List.length_append, List.length_singleton]
    rfl

theorem mkLines_mem {base tid : Nat} {ids : List Nat} {ti : TransactionItem}
    (h : ti ∈ mkLines base tid ids) : ti.transaction_id = tid ∧ ti.item_id ∈ ids := by
  induction ids generalizing base with
  | nil => simp [mkLines] at h
  | cons i rest ih =>
    rcases List.mem_cons.mp h with rfl | h'
    · exact ⟨rfl, List.mem_cons_self _ _⟩
    · obtain ⟨h1, h2⟩ := ih h'
      exact ⟨h1, List.mem_cons_of_mem _ h2⟩

theorem filter_beq_length_eq_one {ids : List Nat} (hnd : ids.Nodup) {j : Nat} (hj : j ∈ ids) :
    (ids.filter (fun i => i == j)).length = 1 := by
  induction ids with
  | nil => simp at hj
  | cons i rest ih =>
    rw [List.nodup_cons] at hnd
    rw [List.filter_cons]
    rcases List.mem_cons.mp hj with rfl | hjr
    · rw [if_pos (by simp)]
      have hrest : rest.filter (fun i => i == j) = [] := by
        rw [List.filter_eq_nil]
        intro a ha
        simp only [beq_iff_eq]
        intro haj
        exact hnd.1 (haj ▸ ha)
      rw [hrest]
      rfl
    · have hij : (i == j) = false :=
        beq_eq_false_iff_ne.mpr (fun h => hnd.1 (h ▸ hjr))
      rw [hij, if_neg (by simp)]
      exact ih hnd.2 hjr

theorem filter_beq_length_eq_zero {ids : List Nat} {j : Nat} (hj : j ∉ ids) :
    (ids.filter (fun i => i == j)).length = 0 := by
  induction ids with
  | nil => rfl
  | cons i rest ih =>
    rw [List.filter_cons]
    have hij : (i == j) = false :=
      beq_eq_false_iff_ne.mpr (fun h => hj (by rw [h]; exact List.mem_cons_self _ _))
    rw [hij, if_neg (by simp)]
    exact ih (fun h => hj (List.mem_cons_of_mem _ h))

theorem mkLines_filter_item (tid j : Nat) :
    ∀ (ids : List Nat) (base : Nat),
      ((mkLines base tid ids).filter (fun ti => ti.item_id == j)).length =
        (ids.filter (fun i => i == j)).length := by
  intro ids
  induction ids with
  | nil => intro base; rfl
  | cons i rest ih =>
    intro base
    rw [show mkLines base tid (i :: rest) =
      (⟨base + 1, tid, i⟩ : TransactionItem) :: mkLines (base + 1) tid rest from rfl]
    rw [List.filter_cons, List.filter_cons]
    by_cases hij : (i == j)
    · rw [if_pos (show ((⟨base + 1, tid, i⟩ : TransactionItem).item_id == j) = true from hij),
        if_pos hij, List.length_cons, List.length_cons, ih]
    · rw [if_neg (show ¬(((⟨base + 1, tid, i⟩ : TransactionItem).item_id == j) = true) from hij),
        if_neg hij, ih]

theorem issueLoop_items :
    ∀ (ids : List Nat) (items : List Item) (lines : List TransactionItem) (tid : Nat),
      (items.map Item.id).Nodup →
      (issueLoop items lines tid ids).1 =
        items.map (fun it => if it.id ∈ ids then { it with status := Status.Issued } else it) := by
  intro ids
  induction ids with
  | nil =>
    intro items lines tid hnd
    show items = _
    rw [show (fun it : Item => if it.id ∈ ([] : List Nat) then
        { it with status := Status.Issued } else it) = fun it => it by
      funext it
      rw [if_neg (List.not_mem_nil it.id)]]
    rw [List.map_id']
  | cons i rest ih =>
    intro items lines tid hnd
    rw [show (issueLoop items lines tid (i :: rest)).1 =
      (issueLoop (updateFirstBy (fun it => it.id == i)
          (fun it => { it with status := Status.Issued }) items)
        (lines ++ [⟨lines.length + 1, tid, i⟩]) tid rest).1 from rfl]
    rw [ih _ _ _ (by
      rw [map_key_updateFirstBy Item.id (fun it => it.id == i)
        (fun it => { it with status := Status.Issued }) (fun _ => rfl)]
      exact hnd)]
    rw [updateFirstBy_eq_map Item.id hnd, List.map_map]
    apply List.map_congr_left
    intro it hit
    simp only [Function.comp]
    by_cases hi : it.id == i
    · have hie : it.id = i := by simpa using hi
      rw [if_pos hi]
      have h1 : ({ it with status := Status.Issued } : Item).id = it.id := rfl
      by_cases hr : it.id ∈ rest
      · rw [if_pos (by rw [h1]; exact hr), if_pos (by rw [hie]; exact List.mem_cons_self _ _)]
      · rw [if_neg (by rw [h1]; exact hr), if_pos (by rw [hie]; exact List.mem_cons_self _ _)]
    · have hie : it.id ≠ i := by simpa using hi
      rw [if_neg hi]
      by_cases hr : it.id ∈ rest
      · rw [if_pos hr, if_pos (List.mem_cons_of_mem _ hr)]
      · rw [if_neg hr, if_neg (by
          intro hmem
          rcases List.mem_cons.mp hmem with h | h
          · exact hie h
          · exact hr h)]

theorem issueLoop_items_map_id (ids : List Nat) (items : List Item)
    (lines : List TransactionItem) (tid : Nat) (hnd : (items.map Item.id).Nodup) :
    ((issueLoop items lines tid ids).1.map Item.id) = items.map Item.id := by
  rw [issueLoop_items ids items lines tid hnd, List.map_map]
  apply List.map_congr_left
  intro it hit
  simp only [Function.comp]
  by_cases h : it.id ∈ ids
  · rw [if_pos h]
  · rw [if_neg h]

/-! ## create_transaction projections and lookups -/

theorem create_transaction_tx (db : Store) (now : Int) (sid : Nat) (ids : List Nat)
    (iid : Option Nat) :
    (create_transaction db now sid ids iid).1.mock_transactions =
      db.mock_transactions ++
        [{ id := db.mock_transactions.length + 1, student_id := sid,
           status := TxStatus.Active, created_at := now, issue_date := now,
           issuer_id := truthyOptNat iid, closed_at := none }] := rfl

theorem create_transaction_items (db : Store) (now : Int) (sid : Nat) (ids : List Nat)
    (iid : Option Nat) :
    (create_transaction db now sid ids iid).1.mock_items =
      (issueLoop db.mock_items db.mock_transaction_items
        (db.mock_transactions.length + 1) ids).1 := rfl

theorem create_transaction_lines (db : Store) (now : Int) (sid : Nat) (ids : List Nat)
    (iid : Option Nat) :
    (create_transaction db now sid ids iid).1.mock_transaction_items =
      (issueLoop db.mock_items db.mock_transaction_items
        (db.mock_transactions.length + 1) ids).2 := rfl

theorem findTx_create_old (db : Store) (now : Int) (sid : Nat) (ids : List Nat)
    (iid : Option Nat) (t : Nat) (ht : t ≠ db.mock_transactions.length + 1) :
    findTx (create_transaction db now sid ids iid).1 t = findTx db t := by
  unfold findTx
  rw [create_transaction_tx, List.find?_append]
  cases hf : List.find? (fun tr => tr.id == t) db.mock_transactions with
  | some tr => rfl
  | none =>
    have hne : ((db.mock_transactions.length + 1 : Nat) == t) = false :=
      beq_eq_false_iff_ne.mpr (Ne.symm ht)
    simp [List.find?, hne]

theorem findTx_create_new (db : Store) (now : Int) (sid : Nat) (ids : List Nat)
    (iid : Option Nat)
    (hwf_t : ∀ tr ∈ db.mock_transactions, tr.id ≤ db.mock_transactions.length) :
    findTx (create_transaction db now sid ids iid).1 (db.mock_transactions.length + 1) =
      some { id := db.mock_transactions.length + 1, student_id := sid,
             status := TxStatus.Active, created_at := now, issue_date := now,
             issuer_id := truthyOptNat iid, closed_at := none } := by
  unfold findTx
  rw [create_transaction_tx, List.find?_append]
  have hnone : List.find? (fun tr => tr.id == db.mock_transactions.length + 1)
      db.mock_transactions = none := by
    rw [List.find?_eq_none]
    intro tr htr
    have := hwf_t tr htr
    simp only [beq_iff_eq]
    omega
  rw [hnone]
  simp [List.find?]

theorem activeLineCount_create (db : Store) (now : Int) (sid : Nat) (ids : List Nat)
    (iid : Option Nat)
    (hwf_t : ∀ t ∈ db.mock_transactions, t.id ≤ db.mock_transactions.length)
    (hwf_l : ∀ ti ∈ db.mock_transaction_items,
      ti.transaction_id ≤ db.mock_transactions.length)
    (j : Nat) :
    activeLineCount (create_transaction db now sid ids iid).1 j =
      activeLineCount db j + (ids.filter (fun i => i == j)).length := by
  unfold activeLineCount
  rw [create_transaction_lines, issueLoop_lines, List.filter_append, List.length_append]
  congr 1
  · apply congrArg List.length
    apply List.filter_congr
    intro ti hti
    have hlow : ti.transaction_id ≠ db.mock_transactions.length + 1 := by
      have := hwf_l ti hti
      omega
    unfold lineIsActive
    rw [findTx_create_old db now sid ids iid ti.transaction_id hlow]
  · have hcong : ∀ ti ∈ mkLines db.mock_transaction_items.length
        (db.mock_transactions.length + 1) ids,
        (ti.item_id == j && lineIsActive (create_transaction db now sid ids iid).1 ti) =
          (ti.item_id == j) := by
      intro ti hti
      have htid := (mkLines_mem hti).1
      unfold lineIsActive
      rw [htid, findTx_create_new db now sid ids iid hwf_t]
      show (ti.item_id == j && true) = (ti.item_id == j)
      rw [Bool.and_true]
    rw [List.filter_congr hcong, mkLines_filter_item]

theorem InvC1_create (db : Store) (now : Int) (sid : Nat) (ids : List Nat) (iid : Option Nat)
    (hinv : InvC1 db) (hwf : Wf db) (hnd : ids.Nodup)
    (hzero : ∀ i ∈ ids, activeLineCount db i = 0) :
    InvC1 (create_transaction db now sid ids iid).1 := by
  obtain ⟨hwf_t, hwf_tnd, hwf_i, hwf_ind, hwf_l⟩ := hwf
  intro it' hmem'
  rw [create_transaction_items, issueLoop_items _ _ _ _ hwf_ind, List.mem_map] at hmem'
  obtain ⟨it, hit, rfl⟩ := hmem'
  have hcount := activeLineCount_create db now sid ids iid hwf_t
    (fun ti hti => (hwf_l ti hti).1)
  by_cases hin : it.id ∈ ids
  · rw [if_pos hin]
    constructor
    · intro _
      rw [show ({ it with status := Status.Issued } : Item).id = it.id from rfl, hcount it.id,
        hzero it.id hin, filter_beq_length_eq_one hnd hin]
    · intro _
      rfl
  · rw [if_neg hin]
    have heq : activeLineCount (create_transaction db now sid ids iid).1 it.id =
        activeLineCount db it.id := by
      rw [hcount it.id, filter_beq_length_eq_zero hin]
      omega
    rw [heq]
    exact hinv it hit

theorem Wf_create (db : Store) (now : Int) (sid : Nat) (ids : List Nat) (iid : Option Nat)
    (hwf : Wf db) (hex : ∀ i ∈ ids, ∃ it ∈ db.mock_items, it.id = i) :
    Wf (create_transaction db now sid ids iid).1 := by
  obtain ⟨hwf_t, hwf_tnd, hwf_i, hwf_ind, hwf_l⟩ := hwf
  refine ⟨?_, ?_, ?_, ?_, ?_⟩
  · intro t hmem
    rw [create_transaction_tx] at hmem ⊢
    rw [List.length_append, List.length_singleton]
    rcases List.mem_append.mp hmem with h | h
    · have := hwf_t t h
      omega
    · rw [List.mem_singleton] at h
      subst h
      show db.mock_transactions.length + 1 ≤ db.mock_transactions.length + 1
      exact Nat.le_refl _
  · rw [create_transaction_tx, List.map_append]
    refine List.Nodup.append hwf_tnd (by simp) ?_
    intro a ha hb
    rw [List.mem_map] at ha
    obtain ⟨t, ht, rfl⟩ := ha
    simp only [List.map_cons, List.map_nil, List.mem_singleton] at hb
    have := hwf_t t ht
    omega
  · intro it hmem
    rw [create_transaction_items, issueLoop_items _ _ _ _ hwf_ind] at hmem
    rw [create_transaction_items, issueLoop_items _ _ _ _ hwf_ind, List.length_map]
    rw [List.mem_map] at hmem
    obtain ⟨x, hx, rfl⟩ := hmem
    have hb := hwf_i x hx
    by_cases h : x.id ∈ ids
    · rw [if_pos h]
      exact hb
    · rw [if_neg h]
      exact hb
  · rw [create_transaction_items, issueLoop_items_map_id _ _ _ _ hwf_ind]
    exact hwf_ind
  · intro ti hmem
    rw [create_transaction_lines, issueLoop_lines] at hmem
    rw [create_transaction_tx, create_transaction_items, List.length_append,
      List.length_singleton, issueLoop_items _ _ _ _ hwf_ind, List.length_map]
    rcases List.mem_append.mp hmem with h | h
    · have := hwf_l ti h
      omega
    · obtain ⟨h1, h2⟩ := mkLines_mem h
      constructor
      · omega
      · obtain ⟨x, hx, hxid⟩ := hex ti.item_id h2
        have := hwf_i x hx
        omega

/-! ## Common shape of `return_item` / `report_damaged` for the invariant -/

/-- The store produced by the mock `return_item` / `report_damaged`: the
first matching item gets status `s`, the first matching transaction is
closed with `closed_at = now`. -/
def closeOp (db : Store) (now : Int) (iid tid : Nat) (s : Status) : Store :=
  { db with
      mock_items := updateFirstBy (fun it => it.id == iid)
        (fun it => { it with status := s }) db.mock_items,
      mock_transactions := updateFirstBy (fun t => t.id == tid)
        (fun t => { t with status := TxStatus.Closed, closed_at := some now })
        db.mock_transactions }

theorem return_item_eq_closeOp (db : Store) (now : Int) (iid tid : Nat) :
    (return_item db now iid tid).1 = closeOp db now iid tid Status.Available := rfl

theorem report_damaged_eq_closeOp (db : Store) (now : Int) (iid tid : Nat) :
    (report_damaged db now iid tid).1 = closeOp db now iid tid Status.Damaged := rfl

theorem findTx_closeOp_ne (db : Store) (now : Int) (iid tid : Nat) (s : Status)
    {t : Nat} (h : t ≠ tid) :
    findTx (closeOp db now iid tid s) t = findTx db t := by
  unfold findTx closeOp
  exact find?_key_updateFirstBy_ne Transaction.id
    (fun tr => { tr with status := TxStatus.Closed, closed_at := some now })
    (fun _ => rfl) h db.mock_transactions

theorem findTx_closeOp_self (db : Store) (now : Int) (iid tid : Nat) (s : Status) :
    findTx (closeOp db now iid tid s) tid =
      (findTx db tid).map
        (fun tr => { tr with status := TxStatus.Closed, closed_at := some now }) := by
  unfold findTx closeOp
  exact find?_key_updateFirstBy_self Transaction.id
    (fun tr => { tr with status := TxStatus.Closed, closed_at := some now })
    (fun _ => rfl) tid db.mock_transactions

theorem lineIsActive_closeOp_closed (db : Store) (now : Int) (iid tid : Nat) (s : Status)
    {ti : TransactionItem} (htid : ti.transaction_id = tid) :
    lineIsActive (closeOp db now iid tid s) ti = false := by
  unfold lineIsActive
  rw [htid, findTx_closeOp_self]
  cases findTx db tid with
  | none => rfl
  | some tr => rfl

theorem lineIsActive_closeOp_other (db : Store) (now : Int) (iid tid : Nat) (s : Status)
    {ti : TransactionItem} (htid : ti.transaction_id ≠ tid) :
    lineIsActive (closeOp db now iid tid s) ti = lineIsActive db ti := by
  unfold lineIsActive
  rw [findTx_closeOp_ne db now iid tid s htid]

theorem activeLineCount_closeOp_ne (db : Store) (now : Int) (iid tid : Nat) (s : Status)
    (hlines : ∀ ti ∈ db.mock_transaction_items, ti.transaction_id = tid → ti.item_id = iid)
    {j : Nat} (hj : j ≠ iid) :
    activeLineCount (closeOp db now iid tid s) j = activeLineCount db j := by
  unfold activeLineCount
  apply congrArg List.length
  apply List.filter_congr
  intro ti hti
  by_cases htid : ti.transaction_id = tid
  · have hitem : ti.item_id = iid := hlines ti hti htid
    have hfalse : (ti.item_id == j) = false :=
      beq_eq_false_iff_ne.mpr (by rw [hitem]; exact fun h => hj h.symm)
    rw [hfalse, Bool.false_and, Bool.false_and]
  · rw [lineIsActive_closeOp_other db now iid tid s htid]

theorem activeLineCount_closeOp_self (db : Store) (now : Int) (iid tid : Nat) (s : Status)
    (hact_sub : ∀ ti ∈ db.mock_transaction_items,
      ti.item_id = iid → lineIsActive db ti = true → ti.transaction_id = tid) :
    activeLineCount (closeOp db now iid tid s) iid = 0 := by
  unfold activeLineCount
  rw [List.length_eq_zero, List.filter_eq_nil]
  intro ti hti
  by_cases htid : ti.transaction_id = tid
  · rw [lineIsActive_closeOp_closed db now iid tid s htid, Bool.and_false]
    simp
  · rw [lineIsActive_closeOp_other db now iid tid s htid]
    simp only [Bool.and_eq_true, beq_iff_eq, not_and]
    intro h1 h2
    exact htid (hact_sub ti hti h1 h2)

theorem closeOp_items_map (db : Store) (now : Int) (iid tid : Nat) (s : Status)
    (hnd : (db.mock_items.map Item.id).Nodup) :
    (closeOp db now iid tid s).mock_items =
      db.mock_items.map (fun it => if it.id == iid then { it with status := s } else it) :=
  updateFirstBy_eq_map Item.id hnd

theorem InvC1_closeOp (db : Store) (now : Int) (iid tid : Nat) (s : Status)
    (hs : s ≠ Status.Issued) (hinv : InvC1 db) (hwf : Wf db)
    (hlines : ∀ ti ∈ db.mock_transaction_items,
      ((ti.item_id = iid ∧ lineIsActive db ti = true) ↔ ti.transaction_id = tid)) :
    InvC1 (closeOp db now iid tid s) := by
  obtain ⟨hwf_t, hwf_tnd, hwf_i, hwf_ind, hwf_l⟩ := hwf
  intro it' hmem'
  rw [closeOp_items_map db now iid tid s hwf_ind, List.mem_map] at hmem'
  obtain ⟨it, hit, rfl⟩ := hmem'
  by_cases hid : it.id == iid
  · rw [if_pos hid]
    have hid' : it.id = iid := by simpa using hid
    constructor
    · intro hst
      exact absurd hst hs
    · intro hcnt
      exfalso
      rw [show ({ it with status := s } : Item).id = it.id from rfl, hid'] at hcnt
      rw [activeLineCount_closeOp_self db now iid tid s
        (fun ti hti h1 h2 => (hlines ti hti).mp ⟨h1, h2⟩)] at hcnt
      omega
  · rw [if_neg hid]
    have hid' : it.id ≠ iid := by simpa using hid
    have heq : activeLineCount (closeOp db now iid tid s) it.id = activeLineCount db it.id :=
      activeLineCount_closeOp_ne db now iid tid s
        (fun ti hti htid => ((hlines ti hti).mpr htid).1) hid'
    rw [heq]
    exact hinv it hit

theorem Wf_closeOp (db : Store) (now : Int) (iid tid : Nat) (s : Status) (hwf : Wf db) :
    Wf (closeOp db now iid tid s) := by
  obtain ⟨hwf_t, hwf_tnd, hwf_i, hwf_ind, hwf_l⟩ := hwf
  refine ⟨?_, ?_, ?_, ?_, ?_⟩
  · intro t hmem
    have hlen : (closeOp db now iid tid s).mock_transactions.length =
        db.mock_transactions.length := length_updateFirstBy _ _ _
    rw [hlen]
    rcases mem_updateFirstBy hmem with h | ⟨x, hx, _, rfl⟩
    · exact hwf_t t h
    · exact hwf_t x hx
  · show (List.map Transaction.id (updateFirstBy _ _ db.mock_transactions)).Nodup
    rw [map_key_updateFirstBy Transaction.id (fun t => t.id == tid)
      (fun t => { t with status := TxStatus.Closed, closed_at := some now }) (fun _ => rfl)]
    exact hwf_tnd
  · intro it hmem
    have hlen : (closeOp db now iid tid s).mock_items.length = db.mock_items.length :=
      length_updateFirstBy _ _ _
    rw [hlen]
    rcases mem_updateFirstBy hmem with h | ⟨x, hx, _, rfl⟩
    · exact hwf_i it h
    · exact hwf_i x hx
  · show (List.map Item.id (updateFirstBy _ _ db.mock_items)).Nodup
    rw [map_key_updateFirstBy Item.id (fun it => it.id == iid)
      (fun it => { it with status := s }) (fun _ => rfl)]
    exact hwf_ind
  · intro ti hti
    have hlent : (closeOp db now iid tid s).mock_transactions.length =
        db.mock_transactions.length := length_updateFirstBy _ _ _
    have hleni : (closeOp db now iid tid s).mock_items.length = db.mock_items.length :=
      length_updateFirstBy _ _ _
    rw [hlent, hleni]
    exact hwf_l ti hti

/-! ## Bulk import preserves the invariant -/

theorem InvC1_Wf_processRow (db : Store) (a b : Nat) (row : CsvRow)
    (hinv : InvC1 db) (hwf : Wf db) :
    InvC1 (processRow db a b row).1 ∧ Wf (processRow db a b row).1 := by
  unfold processRow
  by_cases hg : (pyStrip row.componentName).data = [] ∨ row.quantity ≤ 0
  · rw [if_pos hg]
    exact ⟨hinv, hwf⟩
  · rw [if_neg hg]
    obtain ⟨hwf_t, hwf_tnd, hwf_i, hwf_ind, hwf_l⟩ := hwf
    have htx := (processRowCore_tx_lines db a b row).1
    have hlns := (processRowCore_tx_lines db a b row).2
    have hcnt : ∀ j, activeLineCount (processRowCore db a b row).1 j = activeLineCount db j := by
      intro j
      unfold activeLineCount lineIsActive findTx
      rw [htx, hlns]
    have hgen : (processRowCore db a b row).1.mock_items =
        db.mock_items ++ newItemsList db.mock_items.length
          (targetInvId db (pyStrip row.componentName))
          (codePfx (pyStrip row.componentName))
          (maxSerialLoop (codePfx (pyStrip row.componentName))
            (targetInvId db (pyStrip row.componentName)) db.mock_items 0)
          0 row.quantity.toNat := by
      rw [processRowCore_items, genItemsLoop_eq]
    have hNlen : (newItemsList db.mock_items.length
        (targetInvId db (pyStrip row.componentName))
        (codePfx (pyStrip row.componentName))
        (maxSerialLoop (codePfx (pyStrip row.componentName))
          (targetInvId db (pyStrip row.componentName)) db.mock_items 0)
        0 row.quantity.toNat).length = row.quantity.toNat := by
      unfold newItemsList
      rw [List.length_map, List.length_range]
    constructor
    · intro it' hmem'
      rw [hgen] at hmem'
      rw [hcnt it'.id]
      rcases List.mem_append.mp hmem' with h | h
      · exact hinv it' h
      · unfold newItemsList at h
        rw [List.mem_map] at h
        obtain ⟨j, hj, rfl⟩ := h
        constructor
        · intro hst
          exact absurd hst (show Status.Available ≠ Status.Issued by decide)
        · intro hcnt'
          exfalso
          have hzero : activeLineCount db (db.mock_items.length + j + 1) = 0 := by
            unfold activeLineCount
            rw [List.length_eq_zero, List.filter_eq_nil]
            intro ti hti
            have := (hwf_l ti hti).2
            have hne : (ti.item_id == db.mock_items.length + j + 1) = false :=
              beq_eq_false_iff_ne.mpr (by omega)
            rw [hne, Bool.false_and]
            simp
          have hcnt'' : activeLineCount db (db.mock_items.length + j + 1) = 1 := hcnt'
          omega
    · refine ⟨?_, ?_, ?_, ?_, ?_⟩
      · intro t hmem
        rw [htx] at hmem ⊢
        exact hwf_t t hmem
      · rw [htx]
        exact hwf_tnd
      · intro it hmem
        rw [hgen] at hmem ⊢
        rw [List.length_append, hNlen]
        rcases List.mem_append.mp hmem with h | h
        · have := hwf_i it h
          omega
        · unfold newItemsList at h
          rw [List.mem_map] at h
          obtain ⟨j, hj, rfl⟩ := h
          rw [List.mem_range] at hj
          show db.mock_items.length + j + 1 ≤ db.mock_items.length + row.quantity.toNat
          omega
      · rw [hgen, List.map_append]
        refine List.Nodup.append hwf_ind ?_ ?_
        · unfold newItemsList
          rw [List.map_map]
          refine List.Nodup.map ?_ (List.nodup_range _)
          intro x y hxy
          have hxy' : db.mock_items.length + x + 1 = db.mock_items.length + y + 1 := hxy
          omega
        · intro v hv hv2
          rw [List.mem_map] at hv
          obtain ⟨x, hx, rfl⟩ := hv
          unfold newItemsList at hv2
          rw [List.map_map, List.mem_map] at hv2
          obtain ⟨j, hj, heq⟩ := hv2
          have heq' : db.mock_items.length + j + 1 = x.id := heq
          have := hwf_i x hx
          omega
      · intro ti hti
        rw [hlns] at hti
        rw [htx, hgen, List.length_append, hNlen]
        have := hwf_l ti hti
        constructor <;> omega

theorem InvC1_Wf_bulk_fold :
    ∀ (csv : List CsvRow) (acc : Store × Nat × Nat), InvC1 acc.1 → Wf acc.1 →
      InvC1 (csv.foldl (fun acc row => processRow acc.1 acc.2.1 acc.2.2 row) acc).1 ∧
      Wf (csv.foldl (fun acc row => processRow acc.1 acc.2.1 acc.2.2 row) acc).1 := by
  intro csv
  induction csv with
  | nil => intro acc hinv hwf; exact ⟨hinv, hwf⟩
  | cons row rest ih =>
    intro acc hinv hwf
    rw [List.foldl_cons]
    obtain ⟨h1, h2⟩ := InvC1_Wf_processRow acc.1 acc.2.1 acc.2.2 row hinv hwf
    exact ih _ h1 h2

theorem InvC1_Wf_bulk (db : Store) (csv : List CsvRow) (hinv : InvC1 db) (hwf : Wf db) :
    InvC1 (bulk_import_inventory db csv).1 ∧ Wf (bulk_import_inventory db csv).1 :=
  InvC1_Wf_bulk_fold csv (db, 0, 0) hinv hwf

/-! ## C1 — the Issued ⇔ one-active-line invariant -/

/-- A store reached from the empty store by core operations only: a
bulk import of two Arduinos, then one transaction issuing both items. -/
def dbIssuedPair : Store :=
  (create_transaction
    (bulk_import_inventory {} [{ componentName := "Arduino", quantity := 2 }]).1
    0 1 [1, 2] (some 1)).1

/-- C1 counterexample: `dbIssuedPair` is reachable from the empty store
via the core operations and satisfies the invariant, but `return_item`
on ONE item of the two-item transaction closes the whole transaction and
leaves item 2 `Issued` with no active line — the invariant is not
preserved by every core operation. -/
theorem C1_counterexample :
    InvC1 dbIssuedPair ∧ Wf dbIssuedPair ∧
      ¬ InvC1 (return_item dbIssuedPair 10 1 1).1 := by
  decide

/-- C1 amended: the invariant is NOT a global property of all reachable
states; it is preserved only under preconditions.  `create_transaction`
preserves it when the issued ids are distinct, refer to existing items,
and have no active line yet; `return_item` / `report_damaged` preserve
it only when the lines of the closed transaction are exactly the active
lines of the returned item (in particular a single-item transaction);
bulk import always preserves it.  (Without these preconditions it
fails: returning one item of a two-item transaction leaves the other
item `Issued` with no active line, as the counterexample shows.) -/
theorem C1_amended_invariant :
    (∀ (db : Store) (now : Int) (sid : Nat) (ids : List Nat) (iid : Option Nat),
      InvC1 db → Wf db → ids.Nodup →
      (∀ i ∈ ids, ∃ it ∈ db.mock_items, it.id = i) →
      (∀ i ∈ ids, activeLineCount db i = 0) →
      InvC1 (create_transaction db now sid ids iid).1 ∧
        Wf (create_transaction db now sid ids iid).1) ∧
    (∀ (db : Store) (now : Int) (iid tid : Nat) (t : Transaction),
      InvC1 db → Wf db → findTx db tid = some t → t.status = TxStatus.Active →
      (∀ ti ∈ db.mock_transaction_items,
        ((ti.item_id = iid ∧ lineIsActive db ti = true) ↔ ti.transaction_id = tid)) →
      InvC1 (return_item db now iid tid).1 ∧ Wf (return_item db now iid tid).1) ∧
    (∀ (db : Store) (now : Int) (iid tid : Nat) (t : Transaction),
      InvC1 db → Wf db → findTx db tid = some t → t.status = TxStatus.Active →
      (∀ ti ∈ db.mock_transaction_items,
        ((ti.item_id = iid ∧ lineIsActive db ti = true) ↔ ti.transaction_id = tid)) →
      InvC1 (report_damaged db now iid tid).1 ∧ Wf (report_damaged db now iid tid).1) ∧
    (∀ (db : Store) (csv : List CsvRow), InvC1 db → Wf db →
      InvC1 (bulk_import_inventory db csv).1 ∧ Wf (bulk_import_inventory db csv).1) := by
  refine ⟨?_, ?_, ?_, ?_⟩
  · intro db now sid ids iid hinv hwf hnd hex hzero
    exact ⟨InvC1_create db now sid ids iid hinv hwf hnd hzero,
      Wf_create db now sid ids iid hwf hex⟩
  · intro db now iid tid t hinv hwf ht hact hlines
    rw [return_item_eq_closeOp]
    exact ⟨InvC1_closeOp db now iid tid Status.Available (by decide) hinv hwf hlines,
      Wf_closeOp db now iid tid Status.Available hwf⟩
  · intro db now iid tid t hinv hwf ht hact hlines
    rw [report_damaged_eq_closeOp]
    exact ⟨InvC1_closeOp db now iid tid Status.Damaged (by decide) hinv hwf hlines,
      Wf_closeOp db now iid tid Status.Damaged hwf⟩
  · intro db csv hinv hwf
    exact InvC1_Wf_bulk db csv hinv hwf

/-- A reachable store with a single-item transaction. -/
def dbSingle : Store :=
  (create_transaction
    (bulk_import_inventory {} [{ componentName := "Arduino", quantity := 1 }]).1
    0 1 [1] (some 1)).1

/-- C1 amended witness: returning the only item of a single-line
transaction preserves the invariant. -/
theorem C1_amended_invariant_witness :
    InvC1 (return_item dbSingle 5 1 1).1 ∧ Wf (return_item dbSingle 5 1 1).1 :=
  C1_amended_invariant.2.1 dbSingle 5 1 1
    { id := 1, student_id := 1, status := TxStatus.Active, created_at := 0,
      issue_date := 0, issuer_id := some 1, closed_at := none }
    (by decide) (by decide) (by decide) (by decide) (by decide)

/-- C6 amended witness at a concrete name. -/
theorem C6_amended_witness :
    (codePfx "Raspberry Pi").data.length = 3 ∧ ' ' ∉ (codePfx "Raspberry Pi").data :=
  C6_amended.1 "Raspberry Pi"

/-- C7 witness: the 7-days-plus-one-second transaction of the boundary
store is reported overdue (via the characterization). -/
theorem C7_overdue_characterization_witness :
    ({ item := { id := 2, serial_number := "ARD002", status := Status.Issued,
                 inventory_id := 1 },
       transaction_id := 2, days_overdue := 7 } : OverdueEntry) ∈
      get_overdue_items dbBoundary 0 7 :=
  (C7_overdue_characterization.1 dbBoundary 0 7 _).mpr (by decide)
